import Mathlib

/-!
# The RTMP group (`pkg/rtmp/group.go`): a shallow embedding

`Group` is the per-stream hub of the relay: it records one publisher
reference, one pull-session reference and a set of subscriber sessions, caches
three header messages, and `broadcastRTMP2RTMP` turns each inbound message
into writes to the subscribers.

Conventions of the embedding.

* A non-nil pointer (`*PubSession`, `*PullSession`, `*SubSession`, the
  observer) is a `Nat` address; a nilable reference is an `Option Nat`.
* A Go `[]byte` that the code compares with `nil` is a `Slice`, where `none`
  is the nil slice. The inbound `message` is only measured and indexed, so it
  is a `List Nat` of byte values.
* The mutex is not modelled: every operation is the sequential effect of its
  body. Logging calls are dropped.
* Calls into collaborators whose code is outside this file (`AsyncWrite`,
  `Message2Chunks`, the observer callback, the pull session) are recorded, in
  order, in `World.trace`.
* An index out of range is a run-time panic; operations that can reach one
  return `Option`, with `none` for the panic.
-/

namespace Rtmp

/-- A Go byte slice that may be nil: `none` is the nil slice. -/
abbrev Slice := Option (List Nat)

/-- Modelled from the spec: the declaration of `Header` is not in `group.go`.
These are the five fields `broadcastRTMP2RTMP` assigns or reads (spec 4.3,
step 1: message length, timestamp, message type, logical stream id, chunk
stream id), all Go `int`. -/
structure Header where
  CSID : Int
  MsgLen : Int
  Timestamp : Int
  MsgTypeID : Int
  MsgStreamID : Int
deriving DecidableEq, Repr

/-- The zero value of `var currHeader Header`. -/
def Header.zero : Header :=
  { CSID := 0, MsgLen := 0, Timestamp := 0, MsgTypeID := 0, MsgStreamID := 0 }

/-- The package-level names `group.go` uses without declaring them: the three
message type ids, the logical stream id, the three chunk stream ids, the
chunk size and the packetizer `Message2Chunks`. They are parameters of the
embedding; the packetizer is a function of its arguments. The three type ids
are the `case` constants of one `switch`, which Go only compiles when they are
pairwise different. -/
structure Env where
  TypeidDataMessageAMF0 : Int
  TypeidAudio : Int
  TypeidVideo : Int
  MSID1 : Int
  CSIDAMF : Int
  CSIDAudio : Int
  CSIDVideo : Int
  LocalChunkSize : Int
  Message2Chunks : List Nat → Header → Option Header → Int → Slice
  amf0_ne_audio : TypeidDataMessageAMF0 ≠ TypeidAudio
  amf0_ne_video : TypeidDataMessageAMF0 ≠ TypeidVideo
  audio_ne_video : TypeidAudio ≠ TypeidVideo

/-- The two fields of a `SubSession` that the group reads and clears. -/
structure SubSession where
  isFresh : Bool
  waitKeyNalu : Bool
deriving DecidableEq, Repr

/-- One call into a collaborator, as seen from the group. -/
inductive Event where
  | setPubSessionObserver (session : Nat)
  | message2Chunks (message : List Nat) (header : Header)
      (prevHeader : Option Header) (chunkSize : Int)
  | asyncWrite (session : Nat) (b : Slice)
  | obsReadRTMPAVMsgCB (obs : Nat) (header : Header) (timestampAbs : Int)
      (message : List Nat)
  | newPullSession (session : Nat) (connectTimeout : Int)
  | pullSessionPull (session : Nat) (url : String)
  | pullSessionWaitLoop (session : Nat)
deriving DecidableEq, Repr

/-- The keys of `map[*SubSession]struct{}`: every key once. The order of the
list is the order in which `range` visits the keys. -/
structure SubSessionSet where
  keys : List Nat
  nodup : keys.Nodup

/-- The fields of `Group`, the mutex apart. -/
structure Group where
  appName : String
  streamName : String
  pubSession : Option Nat
  pullSession : Option Nat
  subSessionSet : SubSessionSet
  prevAudioHeader : Option Header
  prevVideoHeader : Option Header
  metadata : Slice
  avcKeySeqHeader : Slice
  aacSeqHeader : Slice
  obs : Option Nat

/-- A group together with the sub sessions its pointers lead to and the calls
made so far. -/
structure World where
  group : Group
  subSessions : Nat → SubSession
  trace : List Event

/-- The empty set, Go `make(map[*SubSession]struct{})`. -/
def SubSessionSet.empty : SubSessionSet := ⟨[], List.nodup_nil⟩

/-- The map assignment `set[session] = struct{}{}`: a key already present stays
as it is. -/
def SubSessionSet.insert (set : SubSessionSet) (session : Nat) : SubSessionSet :=
  if h : session ∈ set.keys then set
  else ⟨session :: set.keys, List.nodup_cons.mpr ⟨h, set.nodup⟩⟩

/-- The built-in `delete(set, session)`: nothing happens for an absent key. -/
def SubSessionSet.delete (set : SubSessionSet) (session : Nat) : SubSessionSet :=
  ⟨set.keys.erase session, set.nodup.erase session⟩

/-- The constructor `NewGroup` (lines 34-40). -/
def NewGroup (appName streamName : String) : Group :=
  { appName := appName, streamName := streamName,
    pubSession := none, pullSession := none,
    subSessionSet := SubSessionSet.empty,
    prevAudioHeader := none, prevVideoHeader := none,
    metadata := none, avcKeySeqHeader := none, aacSeqHeader := none,
    obs := none }

/-- The method `Group.AddPubSession` (lines 58-64). -/
def AddPubSession (session : Nat) (w : World) : World :=
  { w with
    group := { w.group with pubSession := some session }
    trace := w.trace ++ [Event.setPubSessionObserver session] }

/-- The method `Group.AddSubSession` (lines 66-74). -/
def AddSubSession (session : Nat) (w : World) : World :=
  { w with group := { w.group with subSessionSet := w.group.subSessionSet.insert session } }

/-- The method `Group.DelPubSession` (lines 76-82): the argument is only
logged. -/
def DelPubSession (_session : Nat) (w : World) : World :=
  { w with group := { w.group with pubSession := none } }

/-- The method `Group.DelSubSession` (lines 84-89). -/
def DelSubSession (session : Nat) (w : World) : World :=
  { w with group := { w.group with subSessionSet := w.group.subSessionSet.delete session } }

/-- Lines 92-105 of `Group.Pull`, up to the moment `WaitLoop` returns: the
new pull session is stored, then `PullSession.Pull(url)` and
`PullSession.WaitLoop()` are called. `session` is the pointer
`NewPullSession` returns; `pullErr` is what `PullSession.Pull` returns (`none`
for a nil error): it is only logged, and the loop is entered after a failed
connect too. This is the state of the group for as long as the pull lasts. -/
def pullRun (addr : String) (connectTimeout : Int) (session : Nat)
    (_pullErr : Option String) (w : World) : World :=
  let w1 : World :=
    { w with
      group := { w.group with pullSession := some session }
      trace := w.trace ++ [Event.newPullSession session connectTimeout] }
  let url := "rtmp://" ++ addr ++ "/" ++ w1.group.appName ++ "/" ++ w1.group.streamName
  let w2 : World := { w1 with trace := w1.trace ++ [Event.pullSessionPull session url] }
  { w2 with trace := w2.trace ++ [Event.pullSessionWaitLoop session] }

/-- The deferred function of `Group.Pull` (lines 94-99). -/
def pullDeferred (w : World) : World :=
  { w with group := { w.group with pullSession := none } }

/-- The method `Group.Pull` (lines 91-109). `waitLoopErr` is what `PullSession.WaitLoop` returns: with an
error the function logs and returns, without one it falls off the end; the
deferred function runs on both paths. -/
def Pull (addr : String) (connectTimeout : Int) (session : Nat)
    (pullErr waitLoopErr : Option String) (w : World) : World :=
  let w1 := pullRun addr connectTimeout session pullErr w
  match waitLoopErr with
  | some _ => pullDeferred w1
  | none => pullDeferred w1

/-- The method `Group.IsTotalEmpty` (lines 111-115). -/
def IsTotalEmpty (w : World) : Bool :=
  w.group.pubSession.isNone && w.group.subSessionSet.keys.length == 0

/-- The method `Group.IsInExist` (lines 117-121). -/
def IsInExist (w : World) : Bool :=
  w.group.pubSession.isSome

/-- The method `Group.SetObserver` (lines 123-125). -/
def SetObserver (obs : Option Nat) (w : World) : World :=
  { w with group := { w.group with obs := obs } }

/-- The Go expression `a && b` over operands that may panic: `b` is evaluated
only when `a` is true. -/
def goAnd (a b : Option Bool) : Option Bool :=
  match a with
  | none => none
  | some true => b
  | some false => some false

/-- The Go expression `message[i]`, which panics when `i` is out of range. -/
def index (message : List Nat) (i : Nat) : Option Nat := message[i]?

/-- The locals of `broadcastRTMP2RTMP` and the part of the world that its
`range` loop changes. -/
structure LoopState where
  absChunks : Slice
  subSessions : Nat → SubSession
  trace : List Event

/-- The call `session.AsyncWrite(b)`. -/
def LoopState.asyncWrite (st : LoopState) (session : Nat) (b : Slice) : LoopState :=
  { st with trace := st.trace ++ [Event.asyncWrite session b] }

/-- The statement
`absChunks = Message2Chunks(message, &currHeader, nil, LocalChunkSize)`. -/
def LoopState.packetize (E : Env) (message : List Nat) (currHeader : Header)
    (st : LoopState) : LoopState :=
  { st with
    absChunks := E.Message2Chunks message currHeader none E.LocalChunkSize
    trace := st.trace ++ [Event.message2Chunks message currHeader none E.LocalChunkSize] }

/-- The statement `if absChunks == nil { absChunks = Message2Chunks(...) }`
(lines 164-166, 210-212, 218-220, 226-228). -/
def LoopState.ensureChunks (E : Env) (message : List Nat) (currHeader : Header)
    (st : LoopState) : LoopState :=
  if st.absChunks.isNone then st.packetize E message currHeader else st

/-- Lines 141-158 of `group.go`: the outbound header. -/
def mkCurrHeader (E : Env) (header : Header) (timestampAbs : Int) (message : List Nat) :
    Header :=
  let currHeader : Header :=
    { Header.zero with
      MsgLen := (message.length : Int)
      Timestamp := timestampAbs
      MsgTypeID := header.MsgTypeID
      MsgStreamID := E.MSID1 }
  if header.MsgTypeID = E.TypeidDataMessageAMF0 then { currHeader with CSID := E.CSIDAMF }
  else if header.MsgTypeID = E.TypeidAudio then { currHeader with CSID := E.CSIDAudio }
  else if header.MsgTypeID = E.TypeidVideo then { currHeader with CSID := E.CSIDVideo }
  else currHeader

/-- Lines 164-204 of `group.go`: the body of the `range` loop for one
`session`. -/
def loopBody (E : Env) (g : Group) (header : Header) (message : List Nat)
    (currHeader : Header) (st : LoopState) (session : Nat) : Option LoopState :=
  let st := st.ensureChunks E message currHeader
  if (st.subSessions session).isFresh then
    let st := if g.metadata.isSome then st.asyncWrite session g.metadata else st
    let st := if g.avcKeySeqHeader.isSome then st.asyncWrite session g.avcKeySeqHeader else st
    let st := if g.aacSeqHeader.isSome then st.asyncWrite session g.aacSeqHeader else st
    some { st with
      subSessions := Function.update st.subSessions session
        { st.subSessions session with isFresh := false } }
  else if (st.subSessions session).waitKeyNalu then
    if header.MsgTypeID = E.TypeidDataMessageAMF0 then
      some (st.asyncWrite session st.absChunks)
    else if header.MsgTypeID = E.TypeidAudio then
      (goAnd ((index message 0).map fun b => b >>> 4 == 0x0a)
          ((index message 1).map fun b => b == 0x0)).map fun c =>
        if c then st.asyncWrite session st.absChunks else st
    else if header.MsgTypeID = E.TypeidVideo then
      (goAnd ((index message 0).map fun b => b == 0x17)
          ((index message 1).map fun b => b == 0x0)).bind fun c1 =>
        let st := if c1 then st.asyncWrite session st.absChunks else st
        (goAnd ((index message 0).map fun b => b == 0x17)
            ((index message 1).map fun b => b == 0x1)).map fun c2 =>
          if c2 then
            let st := st.asyncWrite session st.absChunks
            { st with
              subSessions := Function.update st.subSessions session
                { st.subSessions session with waitKeyNalu := false } }
          else st
    else some st
  else
    some (st.asyncWrite session st.absChunks)

/-- The loop `for session := range group.subSessionSet`, the keys visited in
the order of the list. Go leaves the order open; what the loop does to one
session depends on the list only through membership (`rangeLoop_spec`). -/
def rangeLoop (E : Env) (g : Group) (header : Header) (message : List Nat)
    (currHeader : Header) : List Nat → LoopState → Option LoopState
  | [], st => some st
  | session :: rest, st =>
    (loopBody E g header message currHeader st session).bind
      (rangeLoop E g header message currHeader rest)

/-- Lines 208-232 of `group.go`: the `switch` that refreshes the caches. -/
def updateCaches (E : Env) (g : Group) (header : Header) (message : List Nat)
    (currHeader : Header) (st : LoopState) : Option (Group × LoopState) :=
  if header.MsgTypeID = E.TypeidDataMessageAMF0 then
    let st := st.ensureChunks E message currHeader
    some ({ g with metadata := st.absChunks }, st)
  else if header.MsgTypeID = E.TypeidVideo then
    (goAnd ((index message 0).map fun b => b == 0x17)
        ((index message 1).map fun b => b == 0x0)).map fun c =>
      if c then
        let st := st.ensureChunks E message currHeader
        ({ g with avcKeySeqHeader := st.absChunks }, st)
      else (g, st)
  else if header.MsgTypeID = E.TypeidAudio then
    (goAnd ((index message 0).map fun b => b >>> 4 == 0x0a)
        ((index message 1).map fun b => b == 0x0)).map fun c =>
      if c then
        let st := st.ensureChunks E message currHeader
        ({ g with aacSeqHeader := st.absChunks }, st)
      else (g, st)
  else some (g, st)

/-- The method `Group.broadcastRTMP2RTMP` (lines 139-233): the outbound header,
the `range` loop, then the cache `switch`. -/
def broadcastRTMP2RTMP (E : Env) (header : Header) (timestampAbs : Int)
    (message : List Nat) (w : World) : Option World :=
  let currHeader := mkCurrHeader E header timestampAbs message
  let st0 : LoopState := { absChunks := none, subSessions := w.subSessions, trace := w.trace }
  (rangeLoop E w.group header message currHeader w.group.subSessionSet.keys st0).bind fun st1 =>
    (updateCaches E w.group header message currHeader st1).map fun r =>
      { group := r.1, subSessions := r.2.subSessions, trace := r.2.trace }

/-- The method `Group.ReadRTMPAVMsgCB` (lines 128-137): the broadcast, then the
observer, if one is registered. -/
def ReadRTMPAVMsgCB (E : Env) (header : Header) (timestampAbs : Int)
    (message : List Nat) (w : World) : Option World :=
  (broadcastRTMP2RTMP E header timestampAbs message w).map fun w1 =>
    match w1.group.obs with
    | some obs =>
      { w1 with trace := w1.trace ++ [Event.obsReadRTMPAVMsgCB obs header timestampAbs message] }
    | none => w1

/-- An inbound message as the source delivers it: header, absolute timestamp,
payload. -/
structure Msg where
  header : Header
  timestampAbs : Int
  message : List Nat

/-- The source delivers `msgs` one after the other through `ReadRTMPAVMsgCB`. -/
def deliver (E : Env) : List Msg → World → Option World
  | [], w => some w
  | m :: rest, w =>
    (ReadRTMPAVMsgCB E m.header m.timestampAbs m.message w).bind (deliver E rest)

/-- The byte slices handed to `session.AsyncWrite`, in order. -/
def writesTo (session : Nat) (trace : List Event) : List Slice :=
  trace.filterMap fun e =>
    match e with
    | Event.asyncWrite s b => if s = session then some b else none
    | _ => none

/-- What `Message2Chunks` returns for an inbound message. -/
def packetized (E : Env) (header : Header) (timestampAbs : Int) (message : List Nat) : Slice :=
  E.Message2Chunks message (mkCurrHeader E header timestampAbs message) none E.LocalChunkSize

/-- The test of line 189 (and 225), false on a payload that is too short. -/
def isAACSeqHeader (message : List Nat) : Prop :=
  message[0]?.map (fun b => b >>> 4) = some 0x0a ∧ message[1]? = some 0x0

/-- The test of line 193 (and 217), false on a payload that is too short. -/
def isAVCSeqHeader (message : List Nat) : Prop :=
  message[0]? = some 0x17 ∧ message[1]? = some 0x0

/-- The test of line 196, false on a payload that is too short. -/
def isAVCKeyNalu (message : List Nat) : Prop :=
  message[0]? = some 0x17 ∧ message[1]? = some 0x1

instance (message : List Nat) : Decidable (isAACSeqHeader message) := by
  unfold isAACSeqHeader; infer_instance

instance (message : List Nat) : Decidable (isAVCSeqHeader message) := by
  unfold isAVCSeqHeader; infer_instance

instance (message : List Nat) : Decidable (isAVCKeyNalu message) := by
  unfold isAVCKeyNalu; infer_instance

/-- The payload is long enough for the type sniffing: an audio or video
message carries at least two bytes. -/
def Safe (E : Env) (header : Header) (message : List Nat) : Prop :=
  (header.MsgTypeID = E.TypeidAudio ∨ header.MsgTypeID = E.TypeidVideo) → 2 ≤ message.length

instance (E : Env) (header : Header) (message : List Nat) : Decidable (Safe E header message) := by
  unfold Safe; infer_instance

/-- The cached blobs that are present, in the order lines 171-179 write them. -/
def cachedBlobs (g : Group) : List Slice :=
  (if g.metadata.isSome then [g.metadata] else []) ++
    ((if g.avcKeySeqHeader.isSome then [g.avcKeySeqHeader] else []) ++
      (if g.aacSeqHeader.isSome then [g.aacSeqHeader] else []))

/-- Closed form of what one pass of `loopBody` writes to a session whose
flags are `s`, when the packetized message is `P` (proved equal to the loop
body in `loopBody_eq`). -/
def stepWrites (E : Env) (g : Group) (header : Header) (message : List Nat) (P : Slice)
    (s : SubSession) : List Slice :=
  if s.isFresh then cachedBlobs g
  else if s.waitKeyNalu then
    if header.MsgTypeID = E.TypeidDataMessageAMF0 then [P]
    else if header.MsgTypeID = E.TypeidAudio then
      (if isAACSeqHeader message then [P] else [])
    else if header.MsgTypeID = E.TypeidVideo then
      (if isAVCSeqHeader message ∨ isAVCKeyNalu message then [P] else [])
    else []
  else [P]

/-- Closed form of the flags one pass of `loopBody` leaves in a session whose
flags were `s` (proved equal to the loop body in `loopBody_eq`). -/
def stepFlags (E : Env) (header : Header) (message : List Nat) (s : SubSession) : SubSession :=
  if s.isFresh then { s with isFresh := false }
  else if s.waitKeyNalu ∧ header.MsgTypeID = E.TypeidVideo ∧ isAVCKeyNalu message then
    { s with waitKeyNalu := false }
  else s

/-- An environment for the worked examples: the type ids, chunk stream ids
and chunk size of the RTMP protocol, and a toy packetizer that puts the chunk
stream id and the timestamp in front of the payload. -/
def demoEnv : Env :=
  { TypeidDataMessageAMF0 := 18, TypeidAudio := 8, TypeidVideo := 9,
    MSID1 := 1, CSIDAMF := 5, CSIDAudio := 6, CSIDVideo := 7,
    LocalChunkSize := 4096,
    Message2Chunks := fun message header _ _ =>
      some (header.CSID.toNat :: header.Timestamp.toNat :: message),
    amf0_ne_audio := by decide, amf0_ne_video := by decide, audio_ne_video := by decide }

/-- A header of the given message type, as a source hands it in. -/
def demoHeader (typeid : Int) : Header :=
  { CSID := 4, MsgLen := 0, Timestamp := 0, MsgTypeID := typeid, MsgStreamID := 1 }

/-- A video message of the examples with the given timestamp and payload. -/
def demoVideo (timestampAbs : Int) (message : List Nat) : Msg :=
  { header := demoHeader 9, timestampAbs := timestampAbs, message := message }

/-- A world of the examples: the group of stream `live/test`, its three caches
filled, no source, the sub sessions at the addresses `keys` in the set, and
every sub session with the flags `isFresh` and `waitKeyNalu`. -/
def demoWorld (keys : SubSessionSet) (isFresh waitKeyNalu : Bool) : World :=
  { group :=
      { NewGroup "live" "test" with
        subSessionSet := keys
        metadata := some [1], avcKeySeqHeader := some [2], aacSeqHeader := some [3] }
    subSessions := fun _ => { isFresh := isFresh, waitKeyNalu := waitKeyNalu }
    trace := [] }

/-- The set that holds the one sub session at address 1. -/
def demoKeys : SubSessionSet := ⟨[1], by decide⟩

/-- Closed form of the group `updateCaches` leaves, when the packetized
message is `P` (proved equal to the `switch` in `updateCaches_spec`). -/
def stepGroup (E : Env) (header : Header) (message : List Nat) (P : Slice) (g : Group) :
    Group :=
  { g with
    metadata := if header.MsgTypeID = E.TypeidDataMessageAMF0 then P else g.metadata
    avcKeySeqHeader :=
      if header.MsgTypeID = E.TypeidVideo ∧ isAVCSeqHeader message then P
      else g.avcKeySeqHeader
    aacSeqHeader :=
      if header.MsgTypeID = E.TypeidAudio ∧ isAACSeqHeader message then P
      else g.aacSeqHeader }

/-- The type sniffing of lines 217 and 225 stays in range: an audio or video
payload has two bytes, or it has one byte and that byte fails the first half
of the test, so that Go does not evaluate `message[1]`. -/
def InRange (E : Env) (header : Header) (message : List Nat) : Prop :=
  (header.MsgTypeID = E.TypeidAudio →
    2 ≤ message.length ∨
      (message.length = 1 ∧ message[0]?.map (fun b => b >>> 4) ≠ some 0x0a)) ∧
  (header.MsgTypeID = E.TypeidVideo →
    2 ≤ message.length ∨ (message.length = 1 ∧ message[0]? ≠ some 0x17))

instance (E : Env) (header : Header) (message : List Nat) :
    Decidable (InRange E header message) := by
  unfold InRange; infer_instance

/-- The message is one that line 214, 222 or 230 stores in a cache. -/
def getsCached (E : Env) (header : Header) (message : List Nat) : Prop :=
  header.MsgTypeID = E.TypeidDataMessageAMF0 ∨
    (header.MsgTypeID = E.TypeidVideo ∧ isAVCSeqHeader message) ∨
    (header.MsgTypeID = E.TypeidAudio ∧ isAACSeqHeader message)

instance (E : Env) (header : Header) (message : List Nat) :
    Decidable (getsCached E header message) := by
  unfold getsCached; infer_instance

/-- Whether an event is a call of `Message2Chunks`. -/
def Event.isMessage2Chunks : Event → Bool
  | Event.message2Chunks _ _ _ _ => true
  | _ => false

/-- The calls of `Message2Chunks` in a trace, in order. -/
def packetizerCalls (trace : List Event) : List Event :=
  trace.filter Event.isMessage2Chunks

/-- The trace without the calls of `Message2Chunks`: what the collaborators
other than the packetizer see. -/
def otherCalls (trace : List Event) : List Event :=
  trace.filter fun e => !e.isMessage2Chunks

/-- The calls of the observer in a trace, in order, each with its arguments. -/
def observerCalls (trace : List Event) : List (Nat × Header × Int × List Nat) :=
  trace.filterMap fun e =>
    match e with
    | Event.obsReadRTMPAVMsgCB obs header timestampAbs message =>
      some (obs, header, timestampAbs, message)
    | _ => none

/-- The variant of `broadcastRTMP2RTMP` that the compute-once claim compares
with: `Message2Chunks` is called once, before the loop, and the loop and the
cache `switch` run with `absChunks` already set. -/
def broadcastEager (E : Env) (header : Header) (timestampAbs : Int)
    (message : List Nat) (w : World) : Option World :=
  let currHeader := mkCurrHeader E header timestampAbs message
  let st0 : LoopState :=
    LoopState.packetize E message currHeader
      { absChunks := none, subSessions := w.subSessions, trace := w.trace }
  (rangeLoop E w.group header message currHeader w.group.subSessionSet.keys st0).bind fun st1 =>
    (updateCaches E w.group header message currHeader st1).map fun r =>
      { group := r.1, subSessions := r.2.subSessions, trace := r.2.trace }

/-- One call of a method of `Group`. -/
inductive Op where
  | addPubSession (session : Nat)
  | addSubSession (session : Nat)
  | delPubSession (session : Nat)
  | delSubSession (session : Nat)
  | readRTMPAVMsgCB (header : Header) (timestampAbs : Int) (message : List Nat)
  | setObserver (obs : Option Nat)
  | pull (addr : String) (connectTimeout : Int) (session : Nat)
      (pullErr waitLoopErr : Option String)

/-- The effect of one call; `none` when the call panics. -/
def Op.run (E : Env) : Op → World → Option World
  | Op.addPubSession session, w => some (AddPubSession session w)
  | Op.addSubSession session, w => some (AddSubSession session w)
  | Op.delPubSession session, w => some (DelPubSession session w)
  | Op.delSubSession session, w => some (DelSubSession session w)
  | Op.readRTMPAVMsgCB header timestampAbs message, w =>
    ReadRTMPAVMsgCB E header timestampAbs message w
  | Op.setObserver obs, w => some (SetObserver obs w)
  | Op.pull addr connectTimeout session pullErr waitLoopErr, w =>
    some (Pull addr connectTimeout session pullErr waitLoopErr w)

/-- A sequence of calls, one after the other. -/
def runOps (E : Env) : List Op → World → Option World
  | [], w => some w
  | op :: rest, w => (op.run E w).bind (runOps E rest)

/-- The state of a sub session in the machine of the spec (section 4.3):
0 for Fresh, 1 for Waiting-for-key-frame, 2 for Streaming. -/
def phase (s : SubSession) : Nat :=
  if s.isFresh then 0 else if s.waitKeyNalu then 1 else 2

/-- A set of the examples with the sub sessions at addresses 1 and 2. -/
def demoKeys2 : SubSessionSet := ⟨[1, 2], by decide⟩

/-- The `range` loop with the state kept at a panic: the loop state at the
moment the loop ends, and whether it ended by a panic. A pass of the loop body
panics only in the index test of line 189 or line 193 (`loopBody_none`), that
is after lines 164-166 and before any `AsyncWrite` or flag assignment of that
pass; so the state at the panic is the state before the pass with `absChunks`
filled in. -/
def rangeLoopEnd (E : Env) (g : Group) (header : Header) (message : List Nat)
    (currHeader : Header) : List Nat → LoopState → LoopState × Bool
  | [], st => (st, false)
  | session :: rest, st =>
    match loopBody E g header message currHeader st session with
    | some st1 => rangeLoopEnd E g header message currHeader rest st1
    | none => (st.ensureChunks E message currHeader, true)

/-- The method `Group.broadcastRTMP2RTMP` with the state kept at a panic: the
world at the moment the call ends, and whether it ended by a panic. A panic in
the loop leaves the group as it was; the cache `switch` panics only in the
index test of line 217 or line 225, before any assignment, and then leaves
what the loop has done. For a call that returns this is the world
`broadcastRTMP2RTMP` gives (`broadcastEnd_of_some`). -/
def broadcastEnd (E : Env) (header : Header) (timestampAbs : Int)
    (message : List Nat) (w : World) : World × Bool :=
  let currHeader := mkCurrHeader E header timestampAbs message
  let st0 : LoopState := { absChunks := none, subSessions := w.subSessions, trace := w.trace }
  match rangeLoopEnd E w.group header message currHeader w.group.subSessionSet.keys st0 with
  | (st1, true) => ({ group := w.group, subSessions := st1.subSessions, trace := st1.trace }, true)
  | (st1, false) =>
    match updateCaches E w.group header message currHeader st1 with
    | some r => ({ group := r.1, subSessions := r.2.subSessions, trace := r.2.trace }, false)
    | none => ({ group := w.group, subSessions := st1.subSessions, trace := st1.trace }, true)

/-- The set of the examples that holds the one sub session at address 2. -/
def demoKeysB : SubSessionSet := ⟨[2], by decide⟩

/-- A world of the examples in which the sub session at address 1 is not fresh
and waits for a key frame, and every other sub session is fresh; the group is
that of `demoWorld`. -/
def demoWorldMixed (keys : SubSessionSet) : World :=
  { demoWorld keys true true with
    subSessions := fun x =>
      if x = 1 then { isFresh := false, waitKeyNalu := true }
      else { isFresh := true, waitKeyNalu := true } }

/-! ## The loop body in closed form -/

theorem goAnd_index (b0 b1 : Nat) (rest : List Nat) (f g : Nat → Bool) :
    goAnd ((index (b0 :: b1 :: rest) 0).map f) ((index (b0 :: b1 :: rest) 1).map g)
      = some (f b0 && g b1) := by
  simp only [index, List.getElem?_cons_zero, List.getElem?_cons_succ, Option.map_some', goAnd]
  cases f b0 <;> rfl

theorem safe_cases (E : Env) (header : Header) (message : List Nat)
    (h : Safe E header message) :
    (header.MsgTypeID ≠ E.TypeidAudio ∧ header.MsgTypeID ≠ E.TypeidVideo) ∨
      ∃ b0 b1 rest, message = b0 :: b1 :: rest := by
  by_cases hav : header.MsgTypeID = E.TypeidAudio ∨ header.MsgTypeID = E.TypeidVideo
  · right
    have hl := h hav
    match message, hl with
    | b0 :: b1 :: rest, _ => exact ⟨b0, b1, rest, rfl⟩
  · left
    exact ⟨fun c => hav (Or.inl c), fun c => hav (Or.inr c)⟩

theorem loopBody_eq (E : Env) (g : Group) (header : Header) (message : List Nat)
    (currHeader : Header) (st : LoopState) (session : Nat) (h : Safe E header message) :
    loopBody E g header message currHeader st session =
      some
        { absChunks := (st.ensureChunks E message currHeader).absChunks
          subSessions := Function.update st.subSessions session
            (stepFlags E header message (st.subSessions session))
          trace := (st.ensureChunks E message currHeader).trace ++
            (stepWrites E g header message (st.ensureChunks E message currHeader).absChunks
              (st.subSessions session)).map (Event.asyncWrite session) } := by
  have hsub : (st.ensureChunks E message currHeader).subSessions = st.subSessions := by
    unfold LoopState.ensureChunks LoopState.packetize
    split <;> rfl
  unfold loopBody
  simp only []
  generalize st.ensureChunks E message currHeader = st1 at hsub
  cases hs : st.subSessions session with
  | mk fr wk =>
    have hupd : Function.update st.subSessions session ⟨fr, wk⟩ = st.subSessions := by
      rw [← hs]; exact Function.update_eq_self _ _
    have heta : (⟨st1.absChunks, st.subSessions, st1.trace⟩ : LoopState) = st1 := by
      rw [← hsub]
    have n1 := E.amf0_ne_audio
    have n2 := E.amf0_ne_video
    have n3 := E.audio_ne_video
    have n4 := E.amf0_ne_audio.symm
    have n5 := E.amf0_ne_video.symm
    have n6 := E.audio_ne_video.symm
    cases fr
    · cases wk
      · simp [stepFlags, stepWrites, hsub, hs, LoopState.asyncWrite, hupd]
      · rcases safe_cases E header message h with ⟨hna, hnv⟩ | ⟨b0, b1, rest, rfl⟩
        · by_cases hd : header.MsgTypeID = E.TypeidDataMessageAMF0 <;>
            simp [stepFlags, stepWrites, hsub, hs, hna, hnv, LoopState.asyncWrite, hupd, hd, heta,
              n1, n2, n3, n4, n5, n6]
        · by_cases hd : header.MsgTypeID = E.TypeidDataMessageAMF0
          · simp [stepFlags, stepWrites, hsub, hs, LoopState.asyncWrite, hupd, hd,
              n1, n2, n3, n4, n5, n6]
          · by_cases hau : header.MsgTypeID = E.TypeidAudio
            · by_cases c : b0 >>> 4 = 10 <;> by_cases c1 : b1 = 0 <;>
                simp [stepFlags, stepWrites, hsub, hs, LoopState.asyncWrite, hupd, hau,
                  goAnd_index, isAACSeqHeader, isAVCKeyNalu, c, c1, heta,
                  n1, n2, n3, n4, n5, n6]
            · by_cases hvi : header.MsgTypeID = E.TypeidVideo
              · by_cases c : b0 = 0x17 <;> by_cases c0 : b1 = 0 <;> by_cases c1 : b1 = 1 <;>
                  first
                  | (exfalso; omega)
                  | simp [stepFlags, stepWrites, hsub, hs, LoopState.asyncWrite, hupd, hvi,
                      goAnd_index, isAVCSeqHeader, isAVCKeyNalu, c, c0, c1, heta,
                      n1, n2, n3, n4, n5, n6]
              · simp [stepFlags, stepWrites, hsub, hs, LoopState.asyncWrite, hupd, hd, hau, hvi,
                  heta]
    · cases hm : g.metadata.isSome <;>
        cases hv : g.avcKeySeqHeader.isSome <;> cases ha : g.aacSeqHeader.isSome <;>
        simp [stepFlags, stepWrites, hsub, hs, LoopState.asyncWrite, cachedBlobs, hm, hv, ha]

/-! ## Writes seen by one session -/

theorem writesTo_append (x : Nat) (t1 t2 : List Event) :
    writesTo x (t1 ++ t2) = writesTo x t1 ++ writesTo x t2 := by
  simp [writesTo, List.filterMap_append]

theorem writesTo_map_asyncWrite (x session : Nat) (l : List Slice) :
    writesTo x (l.map (Event.asyncWrite session)) = if session = x then l else [] := by
  induction l with
  | nil => simp [writesTo]
  | cons b l ih =>
    simp only [writesTo] at ih
    by_cases hx : session = x
    · simp [writesTo, hx] at ih ⊢
      exact ih
    · simp [writesTo, hx] at ih ⊢

theorem ensureChunks_subSessions (E : Env) (message : List Nat) (currHeader : Header)
    (st : LoopState) : (st.ensureChunks E message currHeader).subSessions = st.subSessions := by
  unfold LoopState.ensureChunks LoopState.packetize
  split <;> rfl

theorem ensureChunks_writesTo (E : Env) (message : List Nat) (currHeader : Header)
    (st : LoopState) (x : Nat) :
    writesTo x (st.ensureChunks E message currHeader).trace = writesTo x st.trace := by
  unfold LoopState.ensureChunks LoopState.packetize
  split
  · simp [writesTo_append, writesTo]
  · rfl

theorem ensureChunks_absChunks (E : Env) (message : List Nat) (currHeader : Header)
    (st : LoopState)
    (h : st.absChunks = none ∨
      st.absChunks = E.Message2Chunks message currHeader none E.LocalChunkSize) :
    (st.ensureChunks E message currHeader).absChunks =
      E.Message2Chunks message currHeader none E.LocalChunkSize := by
  unfold LoopState.ensureChunks LoopState.packetize
  rcases h with h | h
  · simp [h]
  · split
    · rfl
    · exact h

/-! ## The `range` loop, session by session -/

theorem rangeLoop_spec (E : Env) (g : Group) (header : Header) (message : List Nat)
    (currHeader : Header) (hsafe : Safe E header message) :
    ∀ (keys : List Nat) (st : LoopState), keys.Nodup →
      (st.absChunks = none ∨
        st.absChunks = E.Message2Chunks message currHeader none E.LocalChunkSize) →
      ∃ st', rangeLoop E g header message currHeader keys st = some st' ∧
        (st'.absChunks = none ∨
          st'.absChunks = E.Message2Chunks message currHeader none E.LocalChunkSize) ∧
        (keys = [] → st' = st) ∧
        (keys ≠ [] →
          st'.absChunks = E.Message2Chunks message currHeader none E.LocalChunkSize) ∧
        (∀ x, st'.subSessions x =
          if x ∈ keys then stepFlags E header message (st.subSessions x)
          else st.subSessions x) ∧
        (∀ x, writesTo x st'.trace = writesTo x st.trace ++
          if x ∈ keys then
            stepWrites E g header message
              (E.Message2Chunks message currHeader none E.LocalChunkSize) (st.subSessions x)
          else []) := by
  intro keys
  induction keys with
  | nil =>
    intro st _ hinv
    exact ⟨st, rfl, hinv, fun _ => rfl, fun h => absurd rfl h, fun x => by simp,
      fun x => by simp⟩
  | cons session rest ih =>
    intro st hnd hinv
    have hnot : session ∉ rest := (List.nodup_cons.mp hnd).1
    have hP := ensureChunks_absChunks E message currHeader st hinv
    obtain ⟨st', hrun, hinv', _, hne, hflags, hwrites⟩ :=
      ih
        { absChunks := (st.ensureChunks E message currHeader).absChunks
          subSessions := Function.update st.subSessions session
            (stepFlags E header message (st.subSessions session))
          trace := (st.ensureChunks E message currHeader).trace ++
            (stepWrites E g header message (st.ensureChunks E message currHeader).absChunks
              (st.subSessions session)).map (Event.asyncWrite session) }
        (List.nodup_cons.mp hnd).2 (Or.inr hP)
    refine ⟨st', ?_, hinv', fun h => by simp at h, fun _ => ?_, fun x => ?_, fun x => ?_⟩
    · simp only [rangeLoop, loopBody_eq E g header message currHeader st session hsafe,
        Option.some_bind]
      exact hrun
    · by_cases hr : rest = []
      · subst hr
        simp only [rangeLoop, Option.some.injEq] at hrun
        rw [← hrun]
        exact hP
      · exact hne hr
    · rw [hflags x]
      by_cases hx : x = session
      · subst hx
        simp [hnot]
      · simp [hx, Function.update_noteq hx]
    · rw [hwrites x]
      simp only [writesTo_append, ensureChunks_writesTo, writesTo_map_asyncWrite, hP]
      by_cases hx : x = session
      · subst hx
        simp [hnot]
      · have hx' : ¬ session = x := fun c => hx c.symm
        simp [hx, hx', Function.update_noteq hx]

/-! ## The cache `switch` and the whole broadcast -/

theorem updateCaches_spec (E : Env) (g : Group) (header : Header) (message : List Nat)
    (currHeader : Header) (st : LoopState) (hsafe : Safe E header message)
    (hinv : st.absChunks = none ∨
      st.absChunks = E.Message2Chunks message currHeader none E.LocalChunkSize) :
    ∃ st', updateCaches E g header message currHeader st =
        some (stepGroup E header message
          (E.Message2Chunks message currHeader none E.LocalChunkSize) g, st') ∧
      st'.subSessions = st.subSessions ∧ ∀ x, writesTo x st'.trace = writesTo x st.trace := by
  have hP := ensureChunks_absChunks E message currHeader st hinv
  have hS := ensureChunks_subSessions E message currHeader st
  have hW := ensureChunks_writesTo E message currHeader st
  have n1 := E.amf0_ne_audio
  have n2 := E.amf0_ne_video
  have n3 := E.audio_ne_video
  have n4 := E.amf0_ne_audio.symm
  have n5 := E.amf0_ne_video.symm
  have n6 := E.audio_ne_video.symm
  unfold updateCaches stepGroup
  by_cases hd : header.MsgTypeID = E.TypeidDataMessageAMF0
  · refine ⟨st.ensureChunks E message currHeader, ?_, hS, hW⟩
    simp [hd, hP, n1, n2, n3, n4, n5, n6]
  · rcases safe_cases E header message hsafe with ⟨hna, hnv⟩ | ⟨b0, b1, rest, rfl⟩
    · exact ⟨st, by simp [hd, hna, hnv], rfl, fun _ => rfl⟩
    · by_cases hvi : header.MsgTypeID = E.TypeidVideo
      · by_cases c : b0 = 0x17 ∧ b1 = 0
        · obtain ⟨rfl, rfl⟩ := c
          refine ⟨st.ensureChunks E (0x17 :: 0 :: rest) currHeader, ?_, hS, hW⟩
          simp [hvi, hP, goAnd_index, isAVCSeqHeader, n1, n2, n3, n4, n5, n6]
        · refine ⟨st, ?_, rfl, fun _ => rfl⟩
          have c' : (b0 == 23 && b1 == 0) = false := by
            cases hb : (b0 == 23 && b1 == 0)
            · rfl
            · simp at hb; exact absurd hb c
          simp [hvi, goAnd_index, isAVCSeqHeader, c, c', n1, n2, n3, n4, n5, n6]
      · by_cases hau : header.MsgTypeID = E.TypeidAudio
        · by_cases c : b0 >>> 4 = 10 ∧ b1 = 0
          · obtain ⟨c0, rfl⟩ := c
            refine ⟨st.ensureChunks E (b0 :: 0 :: rest) currHeader, ?_, hS, hW⟩
            simp [hau, hP, goAnd_index, isAACSeqHeader, c0, n1, n2, n3, n4, n5, n6]
          · refine ⟨st, ?_, rfl, fun _ => rfl⟩
            have c' : (b0 >>> 4 == 10 && b1 == 0) = false := by
              cases hb : (b0 >>> 4 == 10 && b1 == 0)
              · rfl
              · simp at hb; exact absurd hb c
            simp [hau, goAnd_index, isAACSeqHeader, c, c', n1, n2, n3, n4, n5, n6]
        · exact ⟨st, by simp [hd, hvi, hau], rfl, fun _ => rfl⟩

theorem broadcast_spec (E : Env) (header : Header) (timestampAbs : Int) (message : List Nat)
    (w : World) (hsafe : Safe E header message) :
    ∃ w', broadcastRTMP2RTMP E header timestampAbs message w = some w' ∧
      w'.group = stepGroup E header message (packetized E header timestampAbs message) w.group ∧
      (∀ x, w'.subSessions x =
        if x ∈ w.group.subSessionSet.keys then stepFlags E header message (w.subSessions x)
        else w.subSessions x) ∧
      (∀ x, writesTo x w'.trace = writesTo x w.trace ++
        if x ∈ w.group.subSessionSet.keys then
          stepWrites E w.group header message (packetized E header timestampAbs message)
            (w.subSessions x)
        else []) := by
  obtain ⟨st1, hloop, hinv, _, _, hflags, hwrites⟩ :=
    rangeLoop_spec E w.group header message (mkCurrHeader E header timestampAbs message) hsafe
      w.group.subSessionSet.keys
      { absChunks := none, subSessions := w.subSessions, trace := w.trace }
      w.group.subSessionSet.nodup (Or.inl rfl)
  obtain ⟨st2, hupd, hsub, hwr⟩ :=
    updateCaches_spec E w.group header message (mkCurrHeader E header timestampAbs message) st1
      hsafe hinv
  refine ⟨⟨stepGroup E header message (packetized E header timestampAbs message) w.group,
    st2.subSessions, st2.trace⟩, ?_, ?_, ?_, ?_⟩
  · unfold broadcastRTMP2RTMP
    simp only [hloop, Option.some_bind, hupd, Option.map_some']
    rfl
  · rfl
  · intro x
    simp only [hsub]
    exact hflags x
  · intro x
    simp only [hwr]
    exact hwrites x

theorem ReadRTMPAVMsgCB_spec (E : Env) (header : Header) (timestampAbs : Int)
    (message : List Nat) (w : World) (hsafe : Safe E header message) :
    ∃ w', ReadRTMPAVMsgCB E header timestampAbs message w = some w' ∧
      w'.group = stepGroup E header message (packetized E header timestampAbs message) w.group ∧
      (∀ x, w'.subSessions x =
        if x ∈ w.group.subSessionSet.keys then stepFlags E header message (w.subSessions x)
        else w.subSessions x) ∧
      (∀ x, writesTo x w'.trace = writesTo x w.trace ++
        if x ∈ w.group.subSessionSet.keys then
          stepWrites E w.group header message (packetized E header timestampAbs message)
            (w.subSessions x)
        else []) := by
  obtain ⟨w1, hb, hg, hf, hw⟩ := broadcast_spec E header timestampAbs message w hsafe
  unfold ReadRTMPAVMsgCB
  rw [hb]
  simp only [Option.map_some']
  cases ho : w1.group.obs with
  | none => exact ⟨w1, rfl, hg, hf, hw⟩
  | some obs =>
    refine ⟨_, rfl, hg, hf, fun x => ?_⟩
    simp only [writesTo_append]
    rw [hw x]
    simp [writesTo]

/-! ## The caches after any call that returns -/

theorem goAnd_index_some (message : List Nat) (f g : Nat → Bool) (c : Bool)
    (h : goAnd ((index message 0).map f) ((index message 1).map g) = some c) :
    c = true ↔ ∃ b0 b1, message[0]? = some b0 ∧ message[1]? = some b1 ∧
      f b0 = true ∧ g b1 = true := by
  match message, h with
  | [], h => simp [index, goAnd] at h
  | [b0], h =>
    simp only [index, List.getElem?_cons_zero, Option.map_some', goAnd] at h
    cases hf : f b0
    · simp [hf] at h
      simp [← h, hf]
    · simp [hf] at h
  | b0 :: b1 :: rest, h =>
    rw [goAnd_index] at h
    simp only [Option.some.injEq] at h
    simp [← h]

theorem loopBody_absChunks (E : Env) (g : Group) (header : Header) (message : List Nat)
    (currHeader : Header) (st st' : LoopState) (session : Nat)
    (h : loopBody E g header message currHeader st session = some st') :
    st'.absChunks = (st.ensureChunks E message currHeader).absChunks := by
  unfold loopBody at h
  simp only [] at h
  generalize st.ensureChunks E message currHeader = st1 at h
  by_cases hf : (st1.subSessions session).isFresh = true
  · rw [if_pos hf] at h
    simp only [Option.some.injEq] at h
    rw [← h]
    simp only [LoopState.asyncWrite]
    split_ifs <;> rfl
  · rw [if_neg hf] at h
    by_cases hw : (st1.subSessions session).waitKeyNalu = true
    · rw [if_pos hw] at h
      by_cases hd : header.MsgTypeID = E.TypeidDataMessageAMF0
      · rw [if_pos hd] at h
        simp only [Option.some.injEq] at h
        rw [← h]; rfl
      · rw [if_neg hd] at h
        by_cases hau : header.MsgTypeID = E.TypeidAudio
        · rw [if_pos hau] at h
          obtain ⟨c, -, rfl⟩ := Option.map_eq_some'.mp h
          split_ifs <;> rfl
        · rw [if_neg hau] at h
          by_cases hvi : header.MsgTypeID = E.TypeidVideo
          · rw [if_pos hvi] at h
            obtain ⟨c1, -, h2⟩ := Option.bind_eq_some.mp h
            obtain ⟨c2, -, rfl⟩ := Option.map_eq_some'.mp h2
            simp only [LoopState.asyncWrite]
            split_ifs <;> rfl
          · rw [if_neg hvi] at h
            simp only [Option.some.injEq] at h
            rw [← h]
    · rw [if_neg hw] at h
      simp only [Option.some.injEq] at h
      rw [← h]; rfl

theorem rangeLoop_absChunks (E : Env) (g : Group) (header : Header) (message : List Nat)
    (currHeader : Header) :
    ∀ (keys : List Nat) (st st' : LoopState),
      rangeLoop E g header message currHeader keys st = some st' →
      (st.absChunks = none ∨
        st.absChunks = E.Message2Chunks message currHeader none E.LocalChunkSize) →
      (st'.absChunks = none ∨
        st'.absChunks = E.Message2Chunks message currHeader none E.LocalChunkSize) := by
  intro keys
  induction keys with
  | nil =>
    intro st st' h hinv
    simp only [rangeLoop, Option.some.injEq] at h
    rw [← h]; exact hinv
  | cons session rest ih =>
    intro st st' h hinv
    simp only [rangeLoop] at h
    obtain ⟨st1, h1, h2⟩ := Option.bind_eq_some.mp h
    refine ih st1 st' h2 (Or.inr ?_)
    rw [loopBody_absChunks E g header message currHeader st st1 session h1]
    exact ensureChunks_absChunks E message currHeader st hinv

theorem updateCaches_group (E : Env) (g g' : Group) (header : Header) (message : List Nat)
    (currHeader : Header) (st st' : LoopState)
    (h : updateCaches E g header message currHeader st = some (g', st'))
    (hinv : st.absChunks = none ∨
      st.absChunks = E.Message2Chunks message currHeader none E.LocalChunkSize) :
    g' = stepGroup E header message
      (E.Message2Chunks message currHeader none E.LocalChunkSize) g := by
  have hP := ensureChunks_absChunks E message currHeader st hinv
  have n1 := E.amf0_ne_audio
  have n2 := E.amf0_ne_video
  have n3 := E.audio_ne_video
  have n4 := E.amf0_ne_audio.symm
  have n5 := E.amf0_ne_video.symm
  have n6 := E.audio_ne_video.symm
  unfold updateCaches at h
  unfold stepGroup
  by_cases hd : header.MsgTypeID = E.TypeidDataMessageAMF0
  · rw [if_pos hd] at h
    simp only [Option.some.injEq, Prod.mk.injEq] at h
    rw [← h.1]
    simp [hd, hP, n1, n2, n3, n4, n5, n6]
  · rw [if_neg hd] at h
    by_cases hvi : header.MsgTypeID = E.TypeidVideo
    · rw [if_pos hvi] at h
      obtain ⟨c, hc, h2⟩ := Option.map_eq_some'.mp h
      have hiff := goAnd_index_some message _ _ c hc
      cases c
      · have hno : ¬ isAVCSeqHeader message := by
          intro hx
          have : false = true := hiff.mpr ⟨0x17, 0, hx.1, hx.2, by decide, by decide⟩
          exact absurd this (by decide)
        simp only [Bool.false_eq_true, if_false, Prod.mk.injEq] at h2
        rw [← h2.1]
        simp [hvi, hno, n1, n2, n3, n4, n5, n6]
      · obtain ⟨b0, b1, h0, h1, hb0, hb1⟩ := hiff.mp rfl
        have hyes : isAVCSeqHeader message := by
          simp only [beq_iff_eq] at hb0 hb1
          exact ⟨by rw [h0, hb0], by rw [h1, hb1]⟩
        simp only [if_true, Prod.mk.injEq] at h2
        rw [← h2.1]
        simp [hvi, hyes, hP, n1, n2, n3, n4, n5, n6]
    · rw [if_neg hvi] at h
      by_cases hau : header.MsgTypeID = E.TypeidAudio
      · rw [if_pos hau] at h
        obtain ⟨c, hc, h2⟩ := Option.map_eq_some'.mp h
        have hiff := goAnd_index_some message _ _ c hc
        cases c
        · have hno : ¬ isAACSeqHeader message := by
            intro hx
            obtain ⟨b0, hb, hb'⟩ := Option.map_eq_some'.mp hx.1
            have : false = true := hiff.mpr ⟨b0, 0, hb, hx.2, by simp [hb'], by decide⟩
            exact absurd this (by decide)
          simp only [Bool.false_eq_true, if_false, Prod.mk.injEq] at h2
          rw [← h2.1]
          simp [hau, hno, n1, n2, n3, n4, n5, n6]
        · obtain ⟨b0, b1, h0, h1, hb0, hb1⟩ := hiff.mp rfl
          have hyes : isAACSeqHeader message := by
            simp only [beq_iff_eq] at hb0 hb1
            exact ⟨by rw [h0]; simp [hb0], by rw [h1, hb1]⟩
          simp only [if_true, Prod.mk.injEq] at h2
          rw [← h2.1]
          simp [hau, hyes, hP, n1, n2, n3, n4, n5, n6]
      · rw [if_neg hau] at h
        simp only [Option.some.injEq, Prod.mk.injEq] at h
        rw [← h.1]
        simp [hd, hvi, hau]

theorem broadcast_group (E : Env) (header : Header) (timestampAbs : Int) (message : List Nat)
    (w w' : World) (h : broadcastRTMP2RTMP E header timestampAbs message w = some w') :
    w'.group =
      stepGroup E header message (packetized E header timestampAbs message) w.group := by
  unfold broadcastRTMP2RTMP at h
  obtain ⟨st1, h1, h2⟩ := Option.bind_eq_some.mp h
  obtain ⟨r, h3, rfl⟩ := Option.map_eq_some'.mp h2
  have hinv := rangeLoop_absChunks E w.group header message _ _ _ _ h1 (Or.inl rfl)
  obtain ⟨g', st'⟩ := r
  exact updateCaches_group E w.group g' header message _ st1 st' h3 hinv

/-! ## One session across one call and across a sequence of calls -/

theorem subSession_eq (s : SubSession) (f k : Bool) (hf : s.isFresh = f)
    (hk : s.waitKeyNalu = k) : s = ⟨f, k⟩ := by
  cases s
  simp only at hf hk
  rw [hf, hk]

theorem stepGroup_subSessionSet (E : Env) (header : Header) (message : List Nat) (P : Slice)
    (g : Group) : (stepGroup E header message P g).subSessionSet = g.subSessionSet := rfl

theorem ReadRTMPAVMsgCB_member (E : Env) (header : Header) (timestampAbs : Int)
    (message : List Nat) (w : World) (s : Nat) (hsafe : Safe E header message)
    (hmem : s ∈ w.group.subSessionSet.keys) :
    ∃ w', ReadRTMPAVMsgCB E header timestampAbs message w = some w' ∧
      w'.group = stepGroup E header message (packetized E header timestampAbs message) w.group ∧
      w'.subSessions s = stepFlags E header message (w.subSessions s) ∧
      writesTo s w'.trace = writesTo s w.trace ++
        stepWrites E w.group header message (packetized E header timestampAbs message)
          (w.subSessions s) := by
  obtain ⟨w', h, hg, hf, hw⟩ := ReadRTMPAVMsgCB_spec E header timestampAbs message w hsafe
  refine ⟨w', h, hg, ?_, ?_⟩
  · rw [hf s, if_pos hmem]
  · rw [hw s, if_pos hmem]

theorem broadcast_member (E : Env) (header : Header) (timestampAbs : Int)
    (message : List Nat) (w : World) (s : Nat) (hsafe : Safe E header message)
    (hmem : s ∈ w.group.subSessionSet.keys) :
    ∃ w', broadcastRTMP2RTMP E header timestampAbs message w = some w' ∧
      w'.group = stepGroup E header message (packetized E header timestampAbs message) w.group ∧
      w'.subSessions s = stepFlags E header message (w.subSessions s) ∧
      writesTo s w'.trace = writesTo s w.trace ++
        stepWrites E w.group header message (packetized E header timestampAbs message)
          (w.subSessions s) := by
  obtain ⟨w', h, hg, hf, hw⟩ := broadcast_spec E header timestampAbs message w hsafe
  refine ⟨w', h, hg, ?_, ?_⟩
  · rw [hf s, if_pos hmem]
  · rw [hw s, if_pos hmem]

theorem deliver_streaming (E : Env) (s : Nat) :
    ∀ (msgs : List Msg) (w : World), (∀ m ∈ msgs, Safe E m.header m.message) →
      s ∈ w.group.subSessionSet.keys → (w.subSessions s).isFresh = false →
      (w.subSessions s).waitKeyNalu = false →
      ∃ w', deliver E msgs w = some w' ∧
        w'.group.subSessionSet = w.group.subSessionSet ∧
        (w'.subSessions s).isFresh = false ∧ (w'.subSessions s).waitKeyNalu = false ∧
        writesTo s w'.trace = writesTo s w.trace ++
          msgs.map fun m => packetized E m.header m.timestampAbs m.message := by
  intro msgs
  induction msgs with
  | nil =>
    intro w _ _ hf hk
    exact ⟨w, rfl, rfl, hf, hk, by simp⟩
  | cons m rest ih =>
    intro w hsafe hmem hf hk
    obtain ⟨w1, h1, hg1, hf1, hw1⟩ :=
      ReadRTMPAVMsgCB_member E m.header m.timestampAbs m.message w s
        (hsafe m (List.mem_cons_self _ _)) hmem
    have hs := subSession_eq _ _ _ hf hk
    have hset : w1.group.subSessionSet = w.group.subSessionSet := by rw [hg1]; rfl
    rw [hs] at hf1 hw1
    simp only [stepFlags, stepWrites, Bool.false_eq_true, if_false, false_and] at hf1 hw1
    obtain ⟨w', h2, hg2, hf2, hk2, hw2⟩ :=
      ih w1 (fun m' hm' => hsafe m' (List.mem_cons_of_mem _ hm')) (by rw [hset]; exact hmem)
        (by rw [hf1]) (by rw [hf1])
    refine ⟨w', ?_, by rw [hg2, hset], hf2, hk2, ?_⟩
    · simp only [deliver, h1, Option.some_bind]
      exact h2
    · rw [hw2, hw1]
      simp

theorem deliver_notFresh (E : Env) (s : Nat) :
    ∀ (msgs : List Msg) (w : World), (∀ m ∈ msgs, Safe E m.header m.message) →
      (w.subSessions s).isFresh = false →
      ∃ w' l, deliver E msgs w = some w' ∧
        (w'.subSessions s).isFresh = false ∧
        l.Sublist (msgs.map fun m => packetized E m.header m.timestampAbs m.message) ∧
        writesTo s w'.trace = writesTo s w.trace ++ l := by
  intro msgs
  induction msgs with
  | nil =>
    intro w _ hf
    exact ⟨w, [], rfl, hf, List.Sublist.refl _, by simp⟩
  | cons m rest ih =>
    intro w hsafe hf
    obtain ⟨w1, h1, -, hf1, hw1⟩ :=
      ReadRTMPAVMsgCB_spec E m.header m.timestampAbs m.message w
        (hsafe m (List.mem_cons_self _ _))
    have hfresh1 : (w1.subSessions s).isFresh = false := by
      rw [hf1 s]
      unfold stepFlags
      split_ifs <;> simp [hf]
    obtain ⟨w', l, h2, hf2, hsub, hw2⟩ :=
      ih w1 (fun m' hm' => hsafe m' (List.mem_cons_of_mem _ hm')) hfresh1
    have hstep : ∃ l1, l1.Sublist [packetized E m.header m.timestampAbs m.message] ∧
        writesTo s w1.trace = writesTo s w.trace ++ l1 := by
      rw [hw1 s]
      by_cases hmem : s ∈ w.group.subSessionSet.keys
      · rw [if_pos hmem]
        unfold stepWrites
        rw [if_neg (by simp [hf])]
        split_ifs
        all_goals first
          | exact ⟨_, List.Sublist.refl _, rfl⟩
          | exact ⟨[], List.nil_sublist _, rfl⟩
      · rw [if_neg hmem]
        exact ⟨[], List.nil_sublist _, rfl⟩
    obtain ⟨l1, hsub1, hw1'⟩ := hstep
    refine ⟨w', l1 ++ l, ?_, hf2, ?_, ?_⟩
    · simp only [deliver, h1, Option.some_bind]
      exact h2
    · have := List.Sublist.append hsub1 hsub
      simpa using this
    · rw [hw2, hw1', List.append_assoc]

theorem cachedBlobs_eq_filter (g : Group) :
    cachedBlobs g = [g.metadata, g.avcKeySeqHeader, g.aacSeqHeader].filter Option.isSome := by
  unfold cachedBlobs
  cases hm : g.metadata.isSome <;> cases hv : g.avcKeySeqHeader.isSome <;>
    cases ha : g.aacSeqHeader.isSome <;> simp [List.filter, hm, hv, ha]

theorem ReadRTMPAVMsgCB_nonmember (E : Env) (header : Header) (timestampAbs : Int)
    (message : List Nat) (w : World) (s : Nat) (hsafe : Safe E header message)
    (hmem : s ∉ w.group.subSessionSet.keys) :
    ∃ w', ReadRTMPAVMsgCB E header timestampAbs message w = some w' ∧
      w'.group = stepGroup E header message (packetized E header timestampAbs message) w.group ∧
      w'.subSessions s = w.subSessions s ∧
      writesTo s w'.trace = writesTo s w.trace := by
  obtain ⟨w', h, hg, hf, hw⟩ := ReadRTMPAVMsgCB_spec E header timestampAbs message w hsafe
  refine ⟨w', h, hg, ?_, ?_⟩
  · rw [hf s, if_neg hmem]
  · rw [hw s, if_neg hmem, List.append_nil]

/-! ## Key-frame gating -/

/-- C1. Key-frame gating. For a sub session `s` of the set that is not fresh
and waits for a key frame, and a video message of at least two bytes,
`broadcastRTMP2RTMP` returns, writes the packetized message to `s` exactly
once when byte 0 is 0x17 and byte 1 is 0x00 or 0x01, and writes nothing to it
otherwise; `waitKeyNalu` is false afterwards exactly when byte 0 is 0x17 and
byte 1 is 0x01, and true otherwise. Hence, fed the video messages `m1` (byte 0
not 0x17, as for every non-key frame), `m2` (AVC sequence header), `m3` (byte
0 not 0x17), `m4` (AVC key-frame NALU), `s` has been written exactly the
packetized `m2` and `m4` when the key frame is through, and every video
message of `rest` that follows is written to it, in order. -/
theorem keyFrameGating (E : Env) (w : World) (s : Nat)
    (hmem : s ∈ w.group.subSessionSet.keys)
    (hfresh : (w.subSessions s).isFresh = false)
    (hwait : (w.subSessions s).waitKeyNalu = true) :
    (∀ (header : Header) (timestampAbs : Int) (message : List Nat),
      header.MsgTypeID = E.TypeidVideo → 2 ≤ message.length →
      ∃ w', broadcastRTMP2RTMP E header timestampAbs message w = some w' ∧
        writesTo s w'.trace = writesTo s w.trace ++
          (if message[0]? = some 0x17 ∧ (message[1]? = some 0x00 ∨ message[1]? = some 0x01)
            then [packetized E header timestampAbs message] else []) ∧
        ((w'.subSessions s).waitKeyNalu = false ↔
          (message[0]? = some 0x17 ∧ message[1]? = some 0x01)) ∧
        ((w'.subSessions s).waitKeyNalu = true ↔
          ¬ (message[0]? = some 0x17 ∧ message[1]? = some 0x01)) ∧
        (w'.subSessions s).isFresh = false) ∧
    (∀ (m1 m2 m3 m4 : Msg) (rest : List Msg),
      (∀ m ∈ m1 :: m2 :: m3 :: m4 :: rest,
        m.header.MsgTypeID = E.TypeidVideo ∧ 2 ≤ m.message.length) →
      m1.message[0]? ≠ some 0x17 →
      (m2.message[0]? = some 0x17 ∧ m2.message[1]? = some 0x00) →
      m3.message[0]? ≠ some 0x17 →
      (m4.message[0]? = some 0x17 ∧ m4.message[1]? = some 0x01) →
      ∃ w4 w', deliver E [m1, m2, m3, m4] w = some w4 ∧
        writesTo s w4.trace = writesTo s w.trace ++
          [packetized E m2.header m2.timestampAbs m2.message,
            packetized E m4.header m4.timestampAbs m4.message] ∧
        deliver E rest w4 = some w' ∧
        writesTo s w'.trace = writesTo s w4.trace ++
          rest.map fun m => packetized E m.header m.timestampAbs m.message) := by
  have hs := subSession_eq _ _ _ hfresh hwait
  have n5 := E.amf0_ne_video.symm
  have n6 := E.audio_ne_video.symm
  constructor
  · intro header timestampAbs message hv hlen
    obtain ⟨w', h, -, hf, hw⟩ :=
      broadcast_member E header timestampAbs message w s (fun _ => hlen) hmem
    refine ⟨w', h, ?_, ?_, ?_, ?_⟩
    · rw [hw, hs]
      simp only [stepWrites, Bool.false_eq_true, if_false, if_true, hv, n5, n6,
        isAVCSeqHeader, isAVCKeyNalu, and_or_left]
    · rw [hf, hs]
      simp only [stepFlags, Bool.false_eq_true, if_false, hv, true_and, isAVCKeyNalu]
      split_ifs with hc
      · simp [hc]
      · simp [hc]
    · rw [hf, hs]
      simp only [stepFlags, Bool.false_eq_true, if_false, hv, true_and, isAVCKeyNalu]
      split_ifs with hc
      · simp [hc]
      · simp [hc]
    · rw [hf, hs]
      simp only [stepFlags, Bool.false_eq_true, if_false, hv, true_and, isAVCKeyNalu]
      split_ifs <;> rfl
  · intro m1 m2 m3 m4 rest hall h1 h2 h3 h4
    have hv : ∀ m ∈ m1 :: m2 :: m3 :: m4 :: rest, Safe E m.header m.message :=
      fun m hm _ => (hall m hm).2
    have hv1 := (hall m1 (by simp)).1
    have hv2 := (hall m2 (by simp)).1
    have hv3 := (hall m3 (by simp)).1
    have hv4 := (hall m4 (by simp)).1
    obtain ⟨w1, e1, g1, f1, t1⟩ :=
      ReadRTMPAVMsgCB_member E m1.header m1.timestampAbs m1.message w s (hv m1 (by simp)) hmem
    rw [hs] at f1 t1
    simp [stepFlags, stepWrites, hv1, n5, n6, isAVCSeqHeader, isAVCKeyNalu, h1] at f1 t1
    have mem1 : s ∈ w1.group.subSessionSet.keys := by rw [g1]; exact hmem
    obtain ⟨w2, e2, g2, f2, t2⟩ :=
      ReadRTMPAVMsgCB_member E m2.header m2.timestampAbs m2.message w1 s (hv m2 (by simp)) mem1
    rw [f1] at f2 t2
    simp [stepFlags, stepWrites, hv2, n5, n6, isAVCSeqHeader, isAVCKeyNalu, h2.1, h2.2]
      at f2 t2
    have mem2 : s ∈ w2.group.subSessionSet.keys := by rw [g2]; exact mem1
    obtain ⟨w3, e3, g3, f3, t3⟩ :=
      ReadRTMPAVMsgCB_member E m3.header m3.timestampAbs m3.message w2 s (hv m3 (by simp)) mem2
    rw [f2] at f3 t3
    simp [stepFlags, stepWrites, hv3, n5, n6, isAVCSeqHeader, isAVCKeyNalu, h3] at f3 t3
    have mem3 : s ∈ w3.group.subSessionSet.keys := by rw [g3]; exact mem2
    obtain ⟨w4, e4, g4, f4, t4⟩ :=
      ReadRTMPAVMsgCB_member E m4.header m4.timestampAbs m4.message w3 s (hv m4 (by simp)) mem3
    rw [f3] at f4 t4
    simp [stepFlags, stepWrites, hv4, n5, n6, isAVCSeqHeader, isAVCKeyNalu, h4.1, h4.2]
      at f4 t4
    have mem4 : s ∈ w4.group.subSessionSet.keys := by rw [g4]; exact mem3
    obtain ⟨w', e5, -, -, -, t5⟩ :=
      deliver_streaming E s rest w4 (fun m hm => hv m (by simp [hm])) mem4
        (by rw [f4]) (by rw [f4])
    refine ⟨w4, w', ?_, ?_, e5, t5⟩
    · simp only [deliver, e1, e2, e3, e4, Option.some_bind]
    · rw [t4, t3, t2, t1]
      simp

/-- The sequence of C1 on the sub session at address 1, waiting for a key
frame: an inter frame, the AVC sequence header, an inter frame, the key-frame
NALU, then one more inter frame. -/
theorem keyFrameGating_witness :
    1 ∈ (demoWorld demoKeys false true).group.subSessionSet.keys ∧
    ∃ w4 w',
      deliver demoEnv
        [demoVideo 10 [0x27, 1, 5], demoVideo 20 [0x17, 0, 6], demoVideo 30 [0x27, 1, 7],
          demoVideo 40 [0x17, 1, 8]] (demoWorld demoKeys false true) = some w4 ∧
      writesTo 1 w4.trace =
        [] ++ [some [7, 20, 0x17, 0, 6], some [7, 40, 0x17, 1, 8]] ∧
      deliver demoEnv [demoVideo 50 [0x27, 1, 9]] w4 = some w' ∧
      writesTo 1 w'.trace = writesTo 1 w4.trace ++ [some [7, 50, 0x27, 1, 9]] :=
  ⟨by decide,
    (keyFrameGating demoEnv (demoWorld demoKeys false true) 1 (by decide) rfl rfl).2
      (demoVideo 10 [0x27, 1, 5]) (demoVideo 20 [0x17, 0, 6]) (demoVideo 30 [0x27, 1, 7])
      (demoVideo 40 [0x17, 1, 8]) [demoVideo 50 [0x27, 1, 9]]
      (by decide) (by decide) (by decide) (by decide) (by decide)⟩

/-! ## Fresh bootstrap -/

/-- C2. Fresh bootstrap. For every world and every inbound message whose
audio or video payload has at least two bytes, `broadcastRTMP2RTMP` returns,
and a fresh sub session `s` of the set is written exactly the cached blobs
that are present (non-nil), in the order metadata, AVC sequence header, AAC
sequence header, and nothing else; afterwards `isFresh` is false. With all
three caches present these are exactly the three blobs, once each. After
that, whatever messages `later` are delivered, `isFresh` stays false and the
writes to `s` are packetized messages of `later`, in order, never a cache. -/
theorem freshBootstrap (E : Env) (w : World) (s : Nat) (header : Header)
    (timestampAbs : Int) (message : List Nat)
    (hsafe : Safe E header message)
    (hmem : s ∈ w.group.subSessionSet.keys)
    (hfresh : (w.subSessions s).isFresh = true) :
    ∃ w', broadcastRTMP2RTMP E header timestampAbs message w = some w' ∧
      writesTo s w'.trace = writesTo s w.trace ++
        [w.group.metadata, w.group.avcKeySeqHeader, w.group.aacSeqHeader].filter
          Option.isSome ∧
      (w'.subSessions s).isFresh = false ∧
      (∀ a b c, w.group.metadata = some a → w.group.avcKeySeqHeader = some b →
        w.group.aacSeqHeader = some c →
        writesTo s w'.trace = writesTo s w.trace ++ [some a, some b, some c]) ∧
      (∀ later : List Msg, (∀ m ∈ later, Safe E m.header m.message) →
        ∃ w'' l, deliver E later w' = some w'' ∧
          (w''.subSessions s).isFresh = false ∧
          l.Sublist (later.map fun m => packetized E m.header m.timestampAbs m.message) ∧
          writesTo s w''.trace = writesTo s w'.trace ++ l) := by
  obtain ⟨w', h, -, hf, hw⟩ := broadcast_member E header timestampAbs message w s hsafe hmem
  have hf' : (w'.subSessions s).isFresh = false := by
    rw [hf]; simp [stepFlags, hfresh]
  have hw' : writesTo s w'.trace = writesTo s w.trace ++
      [w.group.metadata, w.group.avcKeySeqHeader, w.group.aacSeqHeader].filter
        Option.isSome := by
    rw [hw, ← cachedBlobs_eq_filter]
    simp [stepWrites, hfresh]
  refine ⟨w', h, hw', hf', ?_, ?_⟩
  · intro a b c ha hb hc
    rw [hw', ha, hb, hc]
    rfl
  · intro later hlater
    exact deliver_notFresh E s later w' hlater hf'

/-- C2 on the fresh sub session at address 1 with the three caches filled: an
inter frame arrives and the session is written the three cached blobs. -/
theorem freshBootstrap_witness :
    ∃ w', broadcastRTMP2RTMP demoEnv (demoHeader 9) 10 [0x27, 1, 5]
        (demoWorld demoKeys true true) = some w' ∧
      writesTo 1 w'.trace = [some [1], some [2], some [3]] ∧
      (w'.subSessions 1).isFresh = false :=
  let ⟨w', h, hw, hf, _⟩ :=
    freshBootstrap demoEnv (demoWorld demoKeys true true) 1 (demoHeader 9) 10 [0x27, 1, 5]
      (by decide) (by decide) rfl
  ⟨w', h, hw, hf⟩

/-! ## Cache overwrite -/

/-- C3. Cache overwrite, not merge. After any call of `broadcastRTMP2RTMP`
that returns, the metadata cache is the packetized message when the type is
data-AMF0, the AVC-header cache is the packetized message when the message is
video with byte 0 = 0x17 and byte 1 = 0x00, the AAC-header cache is the
packetized message when the message is audio with byte 0 >> 4 = 0x0a and byte
1 = 0x00, and every cache not so matched is what it was; the call returns
whenever audio and video payloads have at least two bytes. Consequently,
after two AVC sequence headers `m1`, `m2` the AVC-header cache is the
packetized `m2`, and a fresh sub session `s` attached after both is written,
at the next message `m3`, the caches with the packetized `m2` as the only
AVC header. -/
theorem cacheOverwrite (E : Env) (w : World) :
    (∀ (header : Header) (timestampAbs : Int) (message : List Nat) (w' : World),
      broadcastRTMP2RTMP E header timestampAbs message w = some w' →
      w'.group.metadata =
        (if header.MsgTypeID = E.TypeidDataMessageAMF0
          then packetized E header timestampAbs message else w.group.metadata) ∧
      w'.group.avcKeySeqHeader =
        (if header.MsgTypeID = E.TypeidVideo ∧
            (message[0]? = some 0x17 ∧ message[1]? = some 0x00)
          then packetized E header timestampAbs message else w.group.avcKeySeqHeader) ∧
      w'.group.aacSeqHeader =
        (if header.MsgTypeID = E.TypeidAudio ∧
            (message[0]?.map (fun b => b >>> 4) = some 0x0a ∧ message[1]? = some 0x00)
          then packetized E header timestampAbs message else w.group.aacSeqHeader)) ∧
    (∀ (header : Header) (timestampAbs : Int) (message : List Nat),
      Safe E header message →
      ∃ w', broadcastRTMP2RTMP E header timestampAbs message w = some w') ∧
    (∀ (m1 m2 m3 : Msg) (s : Nat),
      m1.header.MsgTypeID = E.TypeidVideo →
      (m1.message[0]? = some 0x17 ∧ m1.message[1]? = some 0x00) →
      m2.header.MsgTypeID = E.TypeidVideo →
      (m2.message[0]? = some 0x17 ∧ m2.message[1]? = some 0x00) →
      Safe E m3.header m3.message →
      s ∉ w.group.subSessionSet.keys → (w.subSessions s).isFresh = true →
      ∃ w2 w3, deliver E [m1, m2] w = some w2 ∧
        w2.group.avcKeySeqHeader = packetized E m2.header m2.timestampAbs m2.message ∧
        w2.group.metadata = w.group.metadata ∧
        w2.group.aacSeqHeader = w.group.aacSeqHeader ∧
        ReadRTMPAVMsgCB E m3.header m3.timestampAbs m3.message (AddSubSession s w2)
          = some w3 ∧
        writesTo s w3.trace = writesTo s w.trace ++
          [w.group.metadata, packetized E m2.header m2.timestampAbs m2.message,
            w.group.aacSeqHeader].filter Option.isSome) := by
  have n1 := E.amf0_ne_audio
  have n2 := E.amf0_ne_video
  have n3 := E.audio_ne_video
  have n4 := E.amf0_ne_audio.symm
  have n5 := E.amf0_ne_video.symm
  have n6 := E.audio_ne_video.symm
  refine ⟨?_, ?_, ?_⟩
  · intro header timestampAbs message w' h
    rw [broadcast_group E header timestampAbs message w w' h]
    exact ⟨rfl, rfl, rfl⟩
  · intro header timestampAbs message hsafe
    obtain ⟨w', h, -⟩ := broadcast_spec E header timestampAbs message w hsafe
    exact ⟨w', h⟩
  · intro m1 m2 m3 s hv1 hb1 hv2 hb2 hsafe3 hmem hfresh
    have len2 : ∀ m : Msg, (m.message[0]? = some 0x17 ∧ m.message[1]? = some 0x00) →
        Safe E m.header m.message := by
      intro m hb _
      have := hb.2
      match hm : m.message, this with
      | _ :: _ :: _, _ => simp
    obtain ⟨w1, e1, g1, f1, t1⟩ :=
      ReadRTMPAVMsgCB_nonmember E m1.header m1.timestampAbs m1.message w s (len2 m1 hb1) hmem
    have mem1 : s ∉ w1.group.subSessionSet.keys := by rw [g1]; exact hmem
    obtain ⟨w2, e2, g2, f2, t2⟩ :=
      ReadRTMPAVMsgCB_nonmember E m2.header m2.timestampAbs m2.message w1 s (len2 m2 hb2) mem1
    have hvh : w2.group.avcKeySeqHeader =
        packetized E m2.header m2.timestampAbs m2.message := by
      rw [g2]; simp [stepGroup, hv2, isAVCSeqHeader, hb2.1, hb2.2]
    have hmd : w2.group.metadata = w.group.metadata := by
      rw [g2, g1]; simp [stepGroup, hv1, hv2, n5]
    have hac : w2.group.aacSeqHeader = w.group.aacSeqHeader := by
      rw [g2, g1]; simp [stepGroup, hv1, hv2, n6]
    have mem2 : s ∈ (AddSubSession s w2).group.subSessionSet.keys := by
      have : s ∉ w2.group.subSessionSet.keys := by rw [g2]; exact mem1
      simp [AddSubSession, SubSessionSet.insert, this]
    obtain ⟨w3, e3, -, -, t3⟩ :=
      ReadRTMPAVMsgCB_member E m3.header m3.timestampAbs m3.message (AddSubSession s w2) s
        hsafe3 mem2
    refine ⟨w2, w3, ?_, hvh, hmd, hac, e3, ?_⟩
    · simp only [deliver, e1, e2, Option.some_bind]
    · rw [t3]
      have hfr : ((AddSubSession s w2).subSessions s).isFresh = true := by
        show (w2.subSessions s).isFresh = true
        rw [f2, f1]; exact hfresh
      have htr : writesTo s (AddSubSession s w2).trace = writesTo s w.trace := by
        show writesTo s w2.trace = writesTo s w.trace
        rw [t2, t1]
      rw [htr]
      simp only [stepWrites, hfr, if_true, cachedBlobs_eq_filter]
      show _ ++ List.filter Option.isSome
        [w2.group.metadata, w2.group.avcKeySeqHeader, w2.group.aacSeqHeader] = _
      rw [hvh, hmd, hac]

/-- C3 on two AVC sequence headers with different payloads, then a fresh sub
session at address 2 that joins and is bootstrapped at the next inter frame:
it is written the metadata, the second header and the AAC header. -/
theorem cacheOverwrite_witness :
    ∃ w2 w3,
      deliver demoEnv [demoVideo 10 [0x17, 0, 5], demoVideo 20 [0x17, 0, 6]]
        (demoWorld demoKeys true true) = some w2 ∧
      w2.group.avcKeySeqHeader = some [7, 20, 0x17, 0, 6] ∧
      ReadRTMPAVMsgCB demoEnv (demoHeader 9) 30 [0x27, 1, 7] (AddSubSession 2 w2) = some w3 ∧
      writesTo 2 w3.trace = [some [1], some [7, 20, 0x17, 0, 6], some [3]] :=
  let ⟨w2, w3, h2, hc, _, _, h3, hw⟩ :=
    (cacheOverwrite demoEnv (demoWorld demoKeys true true)).2.2
      (demoVideo 10 [0x17, 0, 5]) (demoVideo 20 [0x17, 0, 6]) (demoVideo 30 [0x27, 1, 7]) 2
      rfl (by decide) rfl (by decide) (by decide) (by decide) rfl
  ⟨w2, w3, h2, hc, h3, hw⟩

/-! ## Ordering -/

/-- C4. Ordering and unconditional forwarding. For every finite sequence of
inbound messages whose audio and video payloads have at least two bytes,
delivered through `ReadRTMPAVMsgCB`, and every sub session `s` of the set that
is neither fresh nor waiting, all the calls return and the writes to `s` they
add are exactly the packetized messages, one per message, in the order
received. -/
theorem orderedForwarding (E : Env) (w : World) (s : Nat) (msgs : List Msg)
    (hsafe : ∀ m ∈ msgs, Safe E m.header m.message)
    (hmem : s ∈ w.group.subSessionSet.keys)
    (hfresh : (w.subSessions s).isFresh = false)
    (hwait : (w.subSessions s).waitKeyNalu = false) :
    ∃ w', deliver E msgs w = some w' ∧
      w'.group.subSessionSet = w.group.subSessionSet ∧
      writesTo s w'.trace = writesTo s w.trace ++
        msgs.map fun m => packetized E m.header m.timestampAbs m.message := by
  obtain ⟨w', h, hset, -, -, hw⟩ := deliver_streaming E s msgs w hsafe hmem hfresh hwait
  exact ⟨w', h, hset, hw⟩

/-- C4 on the streaming sub session at address 1: a metadata message, an
audio frame and a video frame are written in that order. -/
theorem orderedForwarding_witness :
    ∃ w', deliver demoEnv
        [⟨demoHeader 18, 10, [2, 0]⟩, ⟨demoHeader 8, 20, [0xaf, 1, 5]⟩, demoVideo 30 [0x27, 1, 7]]
        (demoWorld demoKeys false false) = some w' ∧
      writesTo 1 w'.trace =
        [some [5, 10, 2, 0], some [6, 20, 0xaf, 1, 5], some [7, 30, 0x27, 1, 7]] :=
  let ⟨w', h, _, hw⟩ :=
    orderedForwarding demoEnv (demoWorld demoKeys false false) 1
      [⟨demoHeader 18, 10, [2, 0]⟩, ⟨demoHeader 8, 20, [0xaf, 1, 5]⟩, demoVideo 30 [0x27, 1, 7]]
      (by decide) (by decide) rfl rfl
  ⟨w', h, hw⟩

/-! ## Emptiness, attach and detach -/

/-- The claim C5 as stated fails while a pull is running: with no publisher
and no sub session `IsTotalEmpty` returns true although a pull session is
attached. -/
theorem isTotalEmpty_iff_noSource_counterexample :
    ¬ (IsTotalEmpty (pullRun "upstream:1935" 3000 7 none
          (demoWorld SubSessionSet.empty true true)) = true ↔
        ((pullRun "upstream:1935" 3000 7 none
            (demoWorld SubSessionSet.empty true true)).group.pubSession = none ∧
          (pullRun "upstream:1935" 3000 7 none
            (demoWorld SubSessionSet.empty true true)).group.pullSession = none) ∧
          (pullRun "upstream:1935" 3000 7 none
            (demoWorld SubSessionSet.empty true true)).group.subSessionSet.keys = []) := by
  simp [IsTotalEmpty, pullRun, demoWorld, NewGroup, SubSessionSet.empty]

/-- C5, amended. `IsTotalEmpty` returns true exactly when no publisher session
is attached and the subscriber set is empty; the pull-session reference has no
part in the result. -/
theorem isTotalEmpty_iff (w : World) :
    (IsTotalEmpty w = true ↔
      (w.group.pubSession = none ∧ w.group.subSessionSet.keys = [])) ∧
    ∀ p : Option Nat,
      IsTotalEmpty { w with group := { w.group with pullSession := p } } = IsTotalEmpty w := by
  constructor
  · unfold IsTotalEmpty
    cases w.group.pubSession <;> cases w.group.subSessionSet.keys <;> simp
  · intro p
    rfl

/-- The claim C6 as stated fails when `s` is already the only sub session of a
group without publisher: attaching it again changes nothing, detaching it
empties the group. -/
theorem addDel_isTotalEmpty_counterexample :
    IsTotalEmpty (demoWorld demoKeys true true) = false ∧
    IsTotalEmpty (DelSubSession 1 (AddSubSession 1 (demoWorld demoKeys true true)))
      = true := by
  decide

theorem insert_delete_keys (set : SubSessionSet) (s : Nat) :
    ((set.insert s).delete s).keys = set.keys.erase s := by
  unfold SubSessionSet.insert SubSessionSet.delete
  by_cases h : s ∈ set.keys
  · simp [h]
  · simp [h, List.erase_of_not_mem h]

/-- C6, amended. For a handle `s` that is not already in the subscriber set,
`AddSubSession(s)` followed by `DelSubSession(s)` leaves `IsTotalEmpty` with
the value it had. In general the value is kept exactly when it is not the case
that no publisher is attached and `s` was the only member of the set. -/
theorem addDel_isTotalEmpty (w : World) (s : Nat) :
    (s ∉ w.group.subSessionSet.keys →
      IsTotalEmpty (DelSubSession s (AddSubSession s w)) = IsTotalEmpty w) ∧
    (IsTotalEmpty (DelSubSession s (AddSubSession s w)) = IsTotalEmpty w ↔
      ¬ (w.group.pubSession = none ∧ w.group.subSessionSet.keys = [s])) := by
  have hk : (DelSubSession s (AddSubSession s w)).group.subSessionSet.keys
      = w.group.subSessionSet.keys.erase s := insert_delete_keys _ _
  have hp : (DelSubSession s (AddSubSession s w)).group.pubSession = w.group.pubSession := rfl
  have hnd := w.group.subSessionSet.nodup
  unfold IsTotalEmpty
  rw [hk, hp]
  constructor
  · intro hs
    rw [List.erase_of_not_mem hs]
  · by_cases hs : s ∈ w.group.subSessionSet.keys
    · have hlen := List.length_erase_of_mem hs
      have hpos : 0 < w.group.subSessionSet.keys.length := List.length_pos_of_mem hs
      have hone : w.group.subSessionSet.keys = [s] ↔ w.group.subSessionSet.keys.length = 1 := by
        constructor
        · intro h; rw [h]; rfl
        · intro h
          match hkeys : w.group.subSessionSet.keys, h with
          | [x], _ =>
            rw [hkeys] at hs
            simp at hs
            rw [hs]
      rw [hone, hlen]
      have hne : w.group.subSessionSet.keys ≠ [] := List.ne_nil_of_mem hs
      cases w.group.pubSession
      · simp [hne]
        omega
      · simp
    · rw [List.erase_of_not_mem hs]
      simp only [true_iff]
      rintro ⟨-, h⟩
      rw [h] at hs
      simp at hs

/-- C6, amended, on the group with the sub session 1: the handle 2 is
attached and detached. -/
theorem addDel_isTotalEmpty_witness :
    2 ∉ (demoWorld demoKeys true true).group.subSessionSet.keys ∧
    IsTotalEmpty (DelSubSession 2 (AddSubSession 2 (demoWorld demoKeys true true)))
      = IsTotalEmpty (demoWorld demoKeys true true) :=
  ⟨by decide, (addDel_isTotalEmpty (demoWorld demoKeys true true) 2).1 (by decide)⟩

/-- The claim C7 as stated fails for a group that has a publisher: after a
pull whose connect failed, `IsInExist` still returns true. -/
theorem pull_isInExist_counterexample :
    ¬ ((Pull "upstream:1935" 3000 7 (some "connection refused") (some "EOF")
          (AddPubSession 3 (demoWorld SubSessionSet.empty true true))).group.pullSession
        = none ∧
      IsInExist (Pull "upstream:1935" 3000 7 (some "connection refused") (some "EOF")
          (AddPubSession 3 (demoWorld SubSessionSet.empty true true))) = false) := by
  simp [IsInExist, Pull, pullRun, pullDeferred, AddPubSession]

/-- C7, amended. Whatever the connect and the run step return, after `Pull`
the pull-session reference is absent, the publisher reference is what it was,
and so `IsInExist` returns what it returned before: false when no publisher
session is attached. -/
theorem pull_lifecycle (addr : String) (connectTimeout : Int) (session : Nat)
    (pullErr waitLoopErr : Option String) (w : World) :
    (Pull addr connectTimeout session pullErr waitLoopErr w).group.pullSession = none ∧
    (Pull addr connectTimeout session pullErr waitLoopErr w).group.pubSession
      = w.group.pubSession ∧
    IsInExist (Pull addr connectTimeout session pullErr waitLoopErr w) = IsInExist w ∧
    (w.group.pubSession = none →
      IsInExist (Pull addr connectTimeout session pullErr waitLoopErr w) = false) := by
  cases waitLoopErr
  · refine ⟨rfl, rfl, rfl, fun h => ?_⟩
    simp [IsInExist, Pull, pullRun, pullDeferred, h]
  · refine ⟨rfl, rfl, rfl, fun h => ?_⟩
    simp [IsInExist, Pull, pullRun, pullDeferred, h]

/-- C7, amended, on a group without publisher whose pull fails to connect. -/
theorem pull_lifecycle_witness :
    (demoWorld demoKeys true true).group.pubSession = none ∧
    IsInExist (Pull "upstream:1935" 3000 7 (some "connection refused") (some "EOF")
      (demoWorld demoKeys true true)) = false :=
  ⟨rfl, (pull_lifecycle "upstream:1935" 3000 7 (some "connection refused") (some "EOF")
    (demoWorld demoKeys true true)).2.2.2 rfl⟩

/-- C8. Last-writer-wins source attach. After `AddPubSession(a)` then
`AddPubSession(b)` the publisher reference is `b`; the subscriber set, the
pull-session reference and the three caches are what they were, after the
first call and after the second. -/
theorem addPubSession_twice (w : World) (a b : Nat) :
    (AddPubSession b (AddPubSession a w)).group.pubSession = some b ∧
    (AddPubSession a w).group.pubSession = some a ∧
    ((AddPubSession a w).group.subSessionSet = w.group.subSessionSet ∧
      (AddPubSession a w).group.pullSession = w.group.pullSession ∧
      (AddPubSession a w).group.metadata = w.group.metadata ∧
      (AddPubSession a w).group.avcKeySeqHeader = w.group.avcKeySeqHeader ∧
      (AddPubSession a w).group.aacSeqHeader = w.group.aacSeqHeader) ∧
    ((AddPubSession b (AddPubSession a w)).group.subSessionSet = w.group.subSessionSet ∧
      (AddPubSession b (AddPubSession a w)).group.pullSession = w.group.pullSession ∧
      (AddPubSession b (AddPubSession a w)).group.metadata = w.group.metadata ∧
      (AddPubSession b (AddPubSession a w)).group.avcKeySeqHeader = w.group.avcKeySeqHeader ∧
      (AddPubSession b (AddPubSession a w)).group.aacSeqHeader = w.group.aacSeqHeader) :=
  ⟨rfl, rfl, ⟨rfl, rfl, rfl, rfl, rfl⟩, ⟨rfl, rfl, rfl, rfl, rfl⟩⟩

/-- C9. After `DelPubSession(h)`, whether or not `h` is the stored publisher,
the publisher reference is absent; the subscriber set and the three caches
are what they were. -/
theorem delPubSession_clears (w : World) (h : Nat) :
    (DelPubSession h w).group.pubSession = none ∧
    (DelPubSession h w).group.subSessionSet = w.group.subSessionSet ∧
    (DelPubSession h w).group.metadata = w.group.metadata ∧
    (DelPubSession h w).group.avcKeySeqHeader = w.group.avcKeySeqHeader ∧
    (DelPubSession h w).group.aacSeqHeader = w.group.aacSeqHeader :=
  ⟨rfl, rfl, rfl, rfl, rfl⟩

/-- C10. If `s` is not in the subscriber set, `DelSubSession(s)` leaves the
whole state as it was; if `s` is in the set, afterwards `s` is not in it and
every other member still is. -/
theorem delSubSession_spec (w : World) (s : Nat) :
    (s ∉ w.group.subSessionSet.keys → DelSubSession s w = w) ∧
    (s ∈ w.group.subSessionSet.keys →
      s ∉ (DelSubSession s w).group.subSessionSet.keys ∧
      ∀ x ∈ w.group.subSessionSet.keys, x ≠ s →
        x ∈ (DelSubSession s w).group.subSessionSet.keys) := by
  constructor
  · intro hs
    obtain ⟨g, subs, tr⟩ := w
    obtain ⟨an, sn, pub, pull, ⟨keys, nd⟩, pa, pv, md, av, aa, ob⟩ := g
    simp only [DelSubSession, SubSessionSet.delete]
    simp only at hs
    simp [List.erase_of_not_mem hs]
  · intro _
    refine ⟨?_, fun x hx hne => ?_⟩
    · exact List.Nodup.not_mem_erase w.group.subSessionSet.nodup
    · exact (List.mem_erase_of_ne hne).mpr hx

/-- C10 on the group with the sub session 1: detaching the absent handle 2
changes nothing, detaching 1 removes it. -/
theorem delSubSession_spec_witness :
    DelSubSession 2 (demoWorld demoKeys true true) = demoWorld demoKeys true true ∧
    1 ∉ (DelSubSession 1 (demoWorld demoKeys true true)).group.subSessionSet.keys :=
  ⟨(delSubSession_spec (demoWorld demoKeys true true) 2).1 (by decide),
    ((delSubSession_spec (demoWorld demoKeys true true) 1).2 (by decide)).1⟩

/-! ## Calls whose type sniffing stays in range -/

theorem safe_inRange (E : Env) (header : Header) (message : List Nat)
    (h : Safe E header message) : InRange E header message :=
  ⟨fun ha => Or.inl (h (Or.inl ha)), fun hv => Or.inl (h (Or.inr hv))⟩

theorem goAnd_index_one (b0 : Nat) (f g : Nat → Bool) (hf : f b0 = false) :
    goAnd ((index [b0] 0).map f) ((index [b0] 1).map g) = some false := by
  simp [index, goAnd, hf]

theorem inRange_cases (E : Env) (header : Header) (message : List Nat)
    (h : InRange E header message) :
    Safe E header message ∨
      ∃ b0, message = [b0] ∧
        (header.MsgTypeID = E.TypeidAudio → (b0 >>> 4 == 0x0a) = false) ∧
        (header.MsgTypeID = E.TypeidVideo → (b0 == 0x17) = false) := by
  by_cases hs : Safe E header message
  · exact Or.inl hs
  · right
    unfold Safe at hs
    push_neg at hs
    obtain ⟨hav, hlen⟩ := hs
    match message, h, hlen with
    | [], h, _ =>
      rcases hav with ha | hv
      · rcases h.1 ha with h1 | h1
        · simp at h1
        · simp at h1
      · rcases h.2 hv with h1 | h1
        · simp at h1
        · simp at h1
    | [b0], h, _ =>
      refine ⟨b0, rfl, fun ha => ?_, fun hv => ?_⟩
      · rcases h.1 ha with h1 | h1
        · simp at h1
        · simpa using h1.2
      · rcases h.2 hv with h1 | h1
        · simp at h1
        · simpa using h1.2
    | _ :: _ :: _, _, hlen => exact absurd hlen (by simp)

theorem loopBody_eq_inRange (E : Env) (g : Group) (header : Header) (message : List Nat)
    (currHeader : Header) (st : LoopState) (session : Nat) (h : InRange E header message) :
    loopBody E g header message currHeader st session =
      some
        { absChunks := (st.ensureChunks E message currHeader).absChunks
          subSessions := Function.update st.subSessions session
            (stepFlags E header message (st.subSessions session))
          trace := (st.ensureChunks E message currHeader).trace ++
            (stepWrites E g header message (st.ensureChunks E message currHeader).absChunks
              (st.subSessions session)).map (Event.asyncWrite session) } := by
  rcases inRange_cases E header message h with hs | ⟨b0, rfl, hna, hnv⟩
  · exact loopBody_eq E g header message currHeader st session hs
  · have hsub : (st.ensureChunks E [b0] currHeader).subSessions = st.subSessions :=
      ensureChunks_subSessions E [b0] currHeader st
    unfold loopBody
    simp only []
    generalize st.ensureChunks E [b0] currHeader = st1 at hsub
    cases hs : st.subSessions session with
    | mk fr wk =>
      have hupd : Function.update st.subSessions session ⟨fr, wk⟩ = st.subSessions := by
        rw [← hs]; exact Function.update_eq_self _ _
      have heta : (⟨st1.absChunks, st.subSessions, st1.trace⟩ : LoopState) = st1 := by
        rw [← hsub]
      have n1 := E.amf0_ne_audio
      have n2 := E.amf0_ne_video
      have n3 := E.audio_ne_video
      have n4 := E.amf0_ne_audio.symm
      have n5 := E.amf0_ne_video.symm
      have n6 := E.audio_ne_video.symm
      cases fr
      · cases wk
        · simp [stepFlags, stepWrites, hsub, hs, LoopState.asyncWrite, hupd]
        · by_cases hd : header.MsgTypeID = E.TypeidDataMessageAMF0
          · simp [stepFlags, stepWrites, hsub, hs, LoopState.asyncWrite, hupd, hd,
              n1, n2, n3, n4, n5, n6]
          · by_cases hau : header.MsgTypeID = E.TypeidAudio
            · have hb := hna hau
              simp [stepFlags, stepWrites, hsub, hs, LoopState.asyncWrite, hupd, hau,
                goAnd_index_one, hb, isAACSeqHeader, isAVCKeyNalu, heta,
                n1, n2, n3, n4, n5, n6]
            · by_cases hvi : header.MsgTypeID = E.TypeidVideo
              · have hb := hnv hvi
                simp [stepFlags, stepWrites, hsub, hs, LoopState.asyncWrite, hupd, hvi,
                  goAnd_index_one, hb, isAVCSeqHeader, isAVCKeyNalu, heta,
                  n1, n2, n3, n4, n5, n6]
              · simp [stepFlags, stepWrites, hsub, hs, LoopState.asyncWrite, hupd, hd, hau,
                  hvi, heta]
      · cases hm : g.metadata.isSome <;>
          cases hv : g.avcKeySeqHeader.isSome <;> cases ha : g.aacSeqHeader.isSome <;>
          simp [stepFlags, stepWrites, hsub, hs, LoopState.asyncWrite, cachedBlobs, hm, hv, ha]

/-! ## The calls a broadcast adds to the trace -/

theorem otherCalls_append (t1 t2 : List Event) :
    otherCalls (t1 ++ t2) = otherCalls t1 ++ otherCalls t2 := by
  simp [otherCalls]

theorem packetizerCalls_append (t1 t2 : List Event) :
    packetizerCalls (t1 ++ t2) = packetizerCalls t1 ++ packetizerCalls t2 := by
  simp [packetizerCalls]

theorem observerCalls_append (t1 t2 : List Event) :
    observerCalls (t1 ++ t2) = observerCalls t1 ++ observerCalls t2 := by
  simp [observerCalls, List.filterMap_append]

theorem otherCalls_map_asyncWrite (session : Nat) (l : List Slice) :
    otherCalls (l.map (Event.asyncWrite session)) = l.map (Event.asyncWrite session) := by
  unfold otherCalls
  rw [List.filter_eq_self]
  intro e he
  obtain ⟨b, -, rfl⟩ := List.mem_map.mp he
  rfl

theorem packetizerCalls_map_asyncWrite (session : Nat) (l : List Slice) :
    packetizerCalls (l.map (Event.asyncWrite session)) = [] := by
  unfold packetizerCalls
  rw [List.filter_eq_nil_iff]
  intro e he
  obtain ⟨b, -, rfl⟩ := List.mem_map.mp he
  simp [Event.isMessage2Chunks]

theorem flatMap_congr_mem {α β : Type} (l : List α) (f g : α → List β)
    (h : ∀ a ∈ l, f a = g a) : l.flatMap f = l.flatMap g := by
  induction l with
  | nil => rfl
  | cons a l ih =>
    simp only [List.flatMap_cons]
    rw [h a (List.mem_cons_self _ _), ih (fun b hb => h b (List.mem_cons_of_mem _ hb))]

theorem ensureChunks_trace (E : Env) (message : List Nat) (currHeader : Header)
    (st : LoopState) :
    (st.ensureChunks E message currHeader).trace = st.trace ++
      (if st.absChunks = none
        then [Event.message2Chunks message currHeader none E.LocalChunkSize] else []) := by
  unfold LoopState.ensureChunks LoopState.packetize
  cases h : st.absChunks <;> simp

theorem rangeLoop_trace (E : Env) (g : Group) (header : Header) (message : List Nat)
    (currHeader : Header) (hin : InRange E header message) :
    ∀ (keys : List Nat) (st : LoopState), keys.Nodup →
      (st.absChunks = none ∨
        st.absChunks = E.Message2Chunks message currHeader none E.LocalChunkSize) →
      ∃ st' ext n, rangeLoop E g header message currHeader keys st = some st' ∧
        (st'.absChunks = none ∨
          st'.absChunks = E.Message2Chunks message currHeader none E.LocalChunkSize) ∧
        (keys = [] → st'.absChunks = st.absChunks) ∧
        (keys ≠ [] →
          st'.absChunks = E.Message2Chunks message currHeader none E.LocalChunkSize) ∧
        (∀ x, st'.subSessions x =
          if x ∈ keys then stepFlags E header message (st.subSessions x)
          else st.subSessions x) ∧
        st'.trace = st.trace ++ ext ∧
        (∀ x, writesTo x ext =
          if x ∈ keys then
            stepWrites E g header message
              (E.Message2Chunks message currHeader none E.LocalChunkSize) (st.subSessions x)
          else []) ∧
        otherCalls ext = keys.flatMap (fun s =>
          (stepWrites E g header message
            (E.Message2Chunks message currHeader none E.LocalChunkSize)
            (st.subSessions s)).map (Event.asyncWrite s)) ∧
        packetizerCalls ext =
          List.replicate n (Event.message2Chunks message currHeader none E.LocalChunkSize) ∧
        ((E.Message2Chunks message currHeader none E.LocalChunkSize).isSome →
          n = if keys ≠ [] ∧ st.absChunks = none then 1 else 0) := by
  intro keys
  induction keys with
  | nil =>
    intro st _ hinv
    refine ⟨st, [], 0, rfl, hinv, fun _ => rfl, fun h => absurd rfl h, fun x => by simp,
      by simp, fun x => by simp [writesTo], by simp [otherCalls], by simp [packetizerCalls],
      fun _ => by simp⟩
  | cons session rest ih =>
    intro st hnd hinv
    have hnot : session ∉ rest := (List.nodup_cons.mp hnd).1
    have hP := ensureChunks_absChunks E message currHeader st hinv
    obtain ⟨st', ext1, n1, hrun, hinv', hnil, hne, hflags, htrace, hwrites, hother, hpk, hn⟩ :=
      ih
        { absChunks := (st.ensureChunks E message currHeader).absChunks
          subSessions := Function.update st.subSessions session
            (stepFlags E header message (st.subSessions session))
          trace := (st.ensureChunks E message currHeader).trace ++
            (stepWrites E g header message (st.ensureChunks E message currHeader).absChunks
              (st.subSessions session)).map (Event.asyncWrite session) }
        (List.nodup_cons.mp hnd).2 (Or.inr hP)
    simp only [hP] at hnil hne hflags htrace hwrites hother hn
    refine ⟨st',
      (if st.absChunks = none
          then [Event.message2Chunks message currHeader none E.LocalChunkSize] else []) ++
        (stepWrites E g header message
          (E.Message2Chunks message currHeader none E.LocalChunkSize)
          (st.subSessions session)).map (Event.asyncWrite session) ++ ext1,
      (if st.absChunks = none then 1 else 0) + n1,
      ?_, hinv', fun h => by simp at h, fun _ => ?_, fun x => ?_, ?_, fun x => ?_, ?_, ?_, ?_⟩
    · simp only [rangeLoop, loopBody_eq_inRange E g header message currHeader st session hin,
        Option.some_bind]
      exact hrun
    · by_cases hr : rest = []
      · rw [hnil hr]
      · exact hne hr
    · rw [hflags x]
      by_cases hx : x = session
      · subst hx
        simp [hnot]
      · simp [hx, Function.update_noteq hx]
    · rw [htrace, ensureChunks_trace]
      simp only [List.append_assoc]
    · simp only [writesTo_append, hwrites x, writesTo_map_asyncWrite]
      have hpk0 : writesTo x (if st.absChunks = none
          then [Event.message2Chunks message currHeader none E.LocalChunkSize] else []) = [] := by
        split_ifs <;> simp [writesTo]
      rw [hpk0]
      by_cases hx : x = session
      · subst hx
        simp [hnot]
      · have hx' : ¬ session = x := fun c => hx c.symm
        simp [hx, hx', Function.update_noteq hx]
    · simp only [otherCalls_append, otherCalls_map_asyncWrite, hother, List.flatMap_cons]
      have hpk0 : otherCalls (if st.absChunks = none
          then [Event.message2Chunks message currHeader none E.LocalChunkSize] else []) = [] := by
        split_ifs <;> simp [otherCalls, Event.isMessage2Chunks]
      rw [hpk0, List.nil_append]
      congr 1
      apply flatMap_congr_mem
      intro s hs
      have hne' : s ≠ session := fun c => hnot (c ▸ hs)
      rw [Function.update_noteq hne']
    · simp only [packetizerCalls_append, packetizerCalls_map_asyncWrite, hpk, List.append_nil]
      by_cases h0 : st.absChunks = none
      · simp [h0, packetizerCalls, Event.isMessage2Chunks, List.replicate_succ, Nat.add_comm]
      · simp [h0, packetizerCalls]
    · intro hsome
      have h1 := hn hsome
      have hPne : ¬ (E.Message2Chunks message currHeader none E.LocalChunkSize = none) := by
        intro c; rw [c] at hsome; simp at hsome
      simp only [hPne, and_false, if_false] at h1
      rw [h1]
      by_cases h0 : st.absChunks = none <;> simp [h0]

theorem updateCaches_trace (E : Env) (g : Group) (header : Header) (message : List Nat)
    (currHeader : Header) (st : LoopState) (hin : InRange E header message)
    (hinv : st.absChunks = none ∨
      st.absChunks = E.Message2Chunks message currHeader none E.LocalChunkSize) :
    ∃ st', updateCaches E g header message currHeader st =
        some (stepGroup E header message
          (E.Message2Chunks message currHeader none E.LocalChunkSize) g, st') ∧
      st'.subSessions = st.subSessions ∧
      st'.trace = st.trace ++
        (if getsCached E header message ∧ st.absChunks = none
          then [Event.message2Chunks message currHeader none E.LocalChunkSize] else []) := by
  have hP := ensureChunks_absChunks E message currHeader st hinv
  have hS := ensureChunks_subSessions E message currHeader st
  have hT := ensureChunks_trace E message currHeader st
  have n1 := E.amf0_ne_audio
  have n2 := E.amf0_ne_video
  have n3 := E.audio_ne_video
  have n4 := E.amf0_ne_audio.symm
  have n5 := E.amf0_ne_video.symm
  have n6 := E.audio_ne_video.symm
  by_cases hd : header.MsgTypeID = E.TypeidDataMessageAMF0
  · refine ⟨st.ensureChunks E message currHeader, ?_, hS, ?_⟩
    · unfold updateCaches stepGroup
      simp [hd, hP, n1, n2, n3, n4, n5, n6]
    · rw [hT]
      simp [getsCached, hd]
  · by_cases hvi : header.MsgTypeID = E.TypeidVideo
    · by_cases hc : isAVCSeqHeader message
      · obtain ⟨h0, h1⟩ := hc
        match message, h0, h1 with
        | b0 :: b1 :: rest, h0, h1 =>
          simp only [List.getElem?_cons_zero, List.getElem?_cons_succ, Option.some.injEq]
            at h0 h1
          subst h0 h1
          refine ⟨st.ensureChunks E (0x17 :: 0 :: rest) currHeader, ?_, hS, ?_⟩
          · unfold updateCaches stepGroup
            simp [hvi, hP, goAnd_index, isAVCSeqHeader, n1, n2, n3, n4, n5, n6]
          · rw [hT]
            simp [getsCached, hvi, isAVCSeqHeader]
      · refine ⟨st, ?_, rfl, ?_⟩
        · have hgo : goAnd ((index message 0).map fun b => b == 0x17)
              ((index message 1).map fun b => b == 0x0) = some false := by
            rcases inRange_cases E header message hin with hs | ⟨b0, rfl, -, hnv⟩
            · have hlen := hs (Or.inr hvi)
              match message, hlen, hc with
              | b0 :: b1 :: rest, _, hc =>
                rw [goAnd_index]
                cases hb : (b0 == 0x17 && b1 == 0x0)
                · rfl
                · exfalso
                  simp only [Bool.and_eq_true, beq_iff_eq] at hb
                  exact hc ⟨by simp [hb.1], by simp [hb.2]⟩
            · exact goAnd_index_one b0 _ _ (hnv hvi)
          unfold updateCaches stepGroup
          simp [hvi, hgo, hc, n1, n2, n3, n4, n5, n6]
        · simp [getsCached, hvi, hc, hd, n1, n2, n3, n4, n5, n6]
    · by_cases hau : header.MsgTypeID = E.TypeidAudio
      · by_cases hc : isAACSeqHeader message
        · obtain ⟨h0, h1⟩ := hc
          match message, h0, h1 with
          | b0 :: b1 :: rest, h0, h1 =>
            simp only [List.getElem?_cons_zero, List.getElem?_cons_succ, Option.some.injEq,
              Option.map_some'] at h0 h1
            subst h1
            refine ⟨st.ensureChunks E (b0 :: 0 :: rest) currHeader, ?_, hS, ?_⟩
            · unfold updateCaches stepGroup
              simp [hau, hP, goAnd_index, isAACSeqHeader, h0, n1, n2, n3, n4, n5, n6]
            · rw [hT]
              simp [getsCached, hau, isAACSeqHeader, h0]
        · refine ⟨st, ?_, rfl, ?_⟩
          · have hgo : goAnd ((index message 0).map fun b => b >>> 4 == 0x0a)
                ((index message 1).map fun b => b == 0x0) = some false := by
              rcases inRange_cases E header message hin with hs | ⟨b0, rfl, hna, -⟩
              · have hlen := hs (Or.inl hau)
                match message, hlen, hc with
                | b0 :: b1 :: rest, _, hc =>
                  rw [goAnd_index]
                  cases hb : (b0 >>> 4 == 0x0a && b1 == 0x0)
                  · rfl
                  · exfalso
                    simp only [Bool.and_eq_true, beq_iff_eq] at hb
                    exact hc ⟨by simp [hb.1], by simp [hb.2]⟩
              · exact goAnd_index_one b0 _ _ (hna hau)
            unfold updateCaches stepGroup
            simp [hau, hgo, hc, n1, n2, n3, n4, n5, n6]
          · simp [getsCached, hau, hc, hd, n1, n2, n3, n4, n5, n6]
      · refine ⟨st, ?_, rfl, ?_⟩
        · unfold updateCaches stepGroup
          simp [hd, hvi, hau]
        · simp [getsCached, hd, hvi, hau]

theorem updateCaches_none (E : Env) (g : Group) (header : Header) (message : List Nat)
    (currHeader : Header) (st : LoopState) (hin : ¬ InRange E header message) :
    updateCaches E g header message currHeader st = none := by
  have n4 := E.amf0_ne_audio.symm
  have n5 := E.amf0_ne_video.symm
  have n6 := E.audio_ne_video.symm
  unfold InRange at hin
  unfold updateCaches
  by_cases hau : header.MsgTypeID = E.TypeidAudio
  · have hv : ¬ E.TypeidAudio = E.TypeidVideo := E.audio_ne_video
    simp only [hau, hv, n4, n6, true_implies, false_implies, and_true, not_or, not_and,
      not_le] at hin
    match message, hin with
    | [], _ => simp [hau, hv, n4, index, goAnd]
    | [b0], hin =>
      have := hin.2 rfl
      simp only [List.getElem?_cons_zero, Option.map_some', ne_eq, Option.some.injEq,
        not_not] at this
      simp [hau, hv, n4, index, goAnd, this]
    | _ :: _ :: _, hin => exact absurd hin.1 (by simp)
  · by_cases hvi : header.MsgTypeID = E.TypeidVideo
    · have hv : ¬ E.TypeidVideo = E.TypeidAudio := n6
      simp only [hvi, hv, true_implies, false_implies, true_and, not_or, not_and,
        not_le] at hin
      match message, hin with
      | [], _ => simp [hvi, n5, index, goAnd]
      | [b0], hin =>
        have := hin.2 rfl
        simp only [List.getElem?_cons_zero, ne_eq, Option.some.injEq, not_not] at this
        simp [hvi, n5, index, goAnd, this]
      | _ :: _ :: _, hin => exact absurd hin.1 (by simp)
    · exact absurd ⟨fun c => absurd c hau, fun c => absurd c hvi⟩ hin

theorem broadcast_none (E : Env) (header : Header) (timestampAbs : Int) (message : List Nat)
    (w : World) (hin : ¬ InRange E header message) :
    broadcastRTMP2RTMP E header timestampAbs message w = none := by
  unfold broadcastRTMP2RTMP
  simp only []
  cases hl : rangeLoop E w.group header message (mkCurrHeader E header timestampAbs message)
      w.group.subSessionSet.keys
      { absChunks := none, subSessions := w.subSessions, trace := w.trace } with
  | none => rfl
  | some st1 =>
    simp only [Option.some_bind]
    rw [updateCaches_none E w.group header message _ st1 hin]
    rfl

theorem broadcast_trace (E : Env) (header : Header) (timestampAbs : Int) (message : List Nat)
    (w : World) (hin : InRange E header message) :
    ∃ w' ext n, broadcastRTMP2RTMP E header timestampAbs message w = some w' ∧
      w'.group = stepGroup E header message (packetized E header timestampAbs message) w.group ∧
      (∀ x, w'.subSessions x =
        if x ∈ w.group.subSessionSet.keys then stepFlags E header message (w.subSessions x)
        else w.subSessions x) ∧
      w'.trace = w.trace ++ ext ∧
      (∀ x, writesTo x ext =
        if x ∈ w.group.subSessionSet.keys then
          stepWrites E w.group header message (packetized E header timestampAbs message)
            (w.subSessions x)
        else []) ∧
      otherCalls ext = w.group.subSessionSet.keys.flatMap (fun s =>
        (stepWrites E w.group header message (packetized E header timestampAbs message)
          (w.subSessions s)).map (Event.asyncWrite s)) ∧
      packetizerCalls ext =
        List.replicate n
          (Event.message2Chunks message (mkCurrHeader E header timestampAbs message) none
            E.LocalChunkSize) ∧
      ((packetized E header timestampAbs message).isSome →
        n = if w.group.subSessionSet.keys ≠ [] ∨ getsCached E header message then 1 else 0) := by
  obtain ⟨st1, ext1, n1, hloop, hinv, hnil, hne, hflags, htrace, hwrites, hother, hpk, hn⟩ :=
    rangeLoop_trace E w.group header message (mkCurrHeader E header timestampAbs message) hin
      w.group.subSessionSet.keys
      { absChunks := none, subSessions := w.subSessions, trace := w.trace }
      w.group.subSessionSet.nodup (Or.inl rfl)
  obtain ⟨st2, hupd, hsub, htr2⟩ :=
    updateCaches_trace E w.group header message (mkCurrHeader E header timestampAbs message) st1
      hin hinv
  have hc0 : ∀ x, writesTo x
      (if getsCached E header message ∧ st1.absChunks = none
        then [Event.message2Chunks message (mkCurrHeader E header timestampAbs message) none
          E.LocalChunkSize] else []) = [] := by
    intro x; split_ifs <;> simp [writesTo]
  have hc1 : otherCalls
      (if getsCached E header message ∧ st1.absChunks = none
        then [Event.message2Chunks message (mkCurrHeader E header timestampAbs message) none
          E.LocalChunkSize] else []) = [] := by
    split_ifs <;> simp [otherCalls, Event.isMessage2Chunks]
  refine ⟨⟨stepGroup E header message (packetized E header timestampAbs message) w.group,
      st2.subSessions, st2.trace⟩,
    ext1 ++ (if getsCached E header message ∧ st1.absChunks = none
      then [Event.message2Chunks message (mkCurrHeader E header timestampAbs message) none
        E.LocalChunkSize] else []),
    n1 + (if getsCached E header message ∧ st1.absChunks = none then 1 else 0),
    ?_, rfl, ?_, ?_, ?_, ?_, ?_, ?_⟩
  · unfold broadcastRTMP2RTMP
    simp only [hloop, Option.some_bind, hupd, Option.map_some']
    rfl
  · intro x
    simp only [hsub]
    exact hflags x
  · simp only [htr2, htrace, List.append_assoc]
  · intro x
    rw [writesTo_append, hc0 x, List.append_nil]
    exact hwrites x
  · rw [otherCalls_append, hc1, List.append_nil]
    exact hother
  · rw [packetizerCalls_append, hpk]
    by_cases hc : getsCached E header message ∧ st1.absChunks = none
    · simp [hc, packetizerCalls, Event.isMessage2Chunks, List.replicate_succ']
    · simp [hc, packetizerCalls]
  · intro hsome
    have h1 := hn hsome
    simp only [and_true] at h1
    have hPne : ¬ (E.Message2Chunks message (mkCurrHeader E header timestampAbs message) none
        E.LocalChunkSize = none) := by
      intro c
      unfold packetized at hsome
      rw [c] at hsome; simp at hsome
    by_cases hk : w.group.subSessionSet.keys = []
    · have ha : st1.absChunks = none := hnil hk
      simp [h1, hk, ha]
    · have ha : st1.absChunks ≠ none := by rw [hne hk]; exact hPne
      simp [h1, hk, ha]

theorem broadcast_isSome_iff (E : Env) (header : Header) (timestampAbs : Int)
    (message : List Nat) (w : World) :
    (broadcastRTMP2RTMP E header timestampAbs message w).isSome = true ↔
      InRange E header message := by
  constructor
  · intro h
    by_contra hin
    rw [broadcast_none E header timestampAbs message w hin] at h
    simp at h
  · intro hin
    obtain ⟨w', _, _, h, _⟩ := broadcast_trace E header timestampAbs message w hin
    rw [h]; rfl

theorem broadcast_some_inRange (E : Env) (header : Header) (timestampAbs : Int)
    (message : List Nat) (w w' : World)
    (h : broadcastRTMP2RTMP E header timestampAbs message w = some w') :
    InRange E header message :=
  (broadcast_isSome_iff E header timestampAbs message w).mp (by rw [h]; rfl)

theorem eager_trace (E : Env) (header : Header) (timestampAbs : Int) (message : List Nat)
    (w : World) (hin : InRange E header message)
    (hsome : (packetized E header timestampAbs message).isSome = true) :
    ∃ w' ext, broadcastEager E header timestampAbs message w = some w' ∧
      w'.group = stepGroup E header message (packetized E header timestampAbs message) w.group ∧
      (∀ x, w'.subSessions x =
        if x ∈ w.group.subSessionSet.keys then stepFlags E header message (w.subSessions x)
        else w.subSessions x) ∧
      w'.trace = w.trace ++ ext ∧
      otherCalls ext = w.group.subSessionSet.keys.flatMap (fun s =>
        (stepWrites E w.group header message (packetized E header timestampAbs message)
          (w.subSessions s)).map (Event.asyncWrite s)) ∧
      packetizerCalls ext =
        [Event.message2Chunks message (mkCurrHeader E header timestampAbs message) none
          E.LocalChunkSize] := by
  have hPne : ¬ (E.Message2Chunks message (mkCurrHeader E header timestampAbs message) none
      E.LocalChunkSize = none) := by
    intro c
    unfold packetized at hsome
    rw [c] at hsome; simp at hsome
  obtain ⟨st1, ext1, n1, hloop, hinv, hnil, hne, hflags, htrace, -, hother, hpk, hn⟩ :=
    rangeLoop_trace E w.group header message (mkCurrHeader E header timestampAbs message) hin
      w.group.subSessionSet.keys
      (LoopState.packetize E message (mkCurrHeader E header timestampAbs message)
        { absChunks := none, subSessions := w.subSessions, trace := w.trace })
      w.group.subSessionSet.nodup (Or.inr rfl)
  obtain ⟨st2, hupd, hsub, htr2⟩ :=
    updateCaches_trace E w.group header message (mkCurrHeader E header timestampAbs message) st1
      hin hinv
  have ha : st1.absChunks ≠ none := by
    by_cases hk : w.group.subSessionSet.keys = []
    · rw [hnil hk]; exact hPne
    · rw [hne hk]; exact hPne
  have hn0 : n1 = 0 := by
    have := hn hsome
    simpa [LoopState.packetize, hPne] using this
  refine ⟨⟨stepGroup E header message (packetized E header timestampAbs message) w.group,
      st2.subSessions, st2.trace⟩,
    [Event.message2Chunks message (mkCurrHeader E header timestampAbs message) none
      E.LocalChunkSize] ++ ext1, ?_, rfl, ?_, ?_, ?_, ?_⟩
  · unfold broadcastEager
    simp only [hloop, Option.some_bind, hupd, Option.map_some']
    rfl
  · intro x
    simp only [hsub]
    exact hflags x
  · simp only [htr2, htrace, ha, and_false, if_false, List.append_nil]
    simp [LoopState.packetize]
  · rw [otherCalls_append, hother]
    simp [otherCalls, Event.isMessage2Chunks, LoopState.packetize]
    rfl
  · rw [packetizerCalls_append, hpk, hn0]
    simp [packetizerCalls, Event.isMessage2Chunks]

theorem eager_none (E : Env) (header : Header) (timestampAbs : Int) (message : List Nat)
    (w : World) (hin : ¬ InRange E header message) :
    broadcastEager E header timestampAbs message w = none := by
  unfold broadcastEager
  simp only []
  cases hl : rangeLoop E w.group header message (mkCurrHeader E header timestampAbs message)
      w.group.subSessionSet.keys
      (LoopState.packetize E message (mkCurrHeader E header timestampAbs message)
        { absChunks := none, subSessions := w.subSessions, trace := w.trace }) with
  | none => rfl
  | some st1 =>
    simp only [Option.some_bind]
    rw [updateCaches_none E w.group header message _ st1 hin]
    rfl

/-! ## Audio and metadata gating -/

/-- C11. Audio and metadata gating. For a sub session `s` of the set that is
not fresh and waits for a key frame: a data-AMF0 message, whatever its
payload, is written to `s` (the packetized message, once); an audio message
of at least two bytes is written to `s` exactly when byte 0 >> 4 is 0x0a and
byte 1 is 0x00; in both cases the call returns and `waitKeyNalu` stays
true. -/
theorem audioMetadataGating (E : Env) (w : World) (s : Nat)
    (hmem : s ∈ w.group.subSessionSet.keys)
    (hfresh : (w.subSessions s).isFresh = false)
    (hwait : (w.subSessions s).waitKeyNalu = true) :
    (∀ (header : Header) (timestampAbs : Int) (message : List Nat),
      header.MsgTypeID = E.TypeidDataMessageAMF0 →
      ∃ w', broadcastRTMP2RTMP E header timestampAbs message w = some w' ∧
        writesTo s w'.trace = writesTo s w.trace ++ [packetized E header timestampAbs message] ∧
        (w'.subSessions s).waitKeyNalu = true ∧ (w'.subSessions s).isFresh = false) ∧
    (∀ (header : Header) (timestampAbs : Int) (message : List Nat),
      header.MsgTypeID = E.TypeidAudio → 2 ≤ message.length →
      ∃ w', broadcastRTMP2RTMP E header timestampAbs message w = some w' ∧
        writesTo s w'.trace = writesTo s w.trace ++
          (if message[0]?.map (fun b => b >>> 4) = some 0x0a ∧ message[1]? = some 0x00
            then [packetized E header timestampAbs message] else []) ∧
        (w'.subSessions s).waitKeyNalu = true ∧ (w'.subSessions s).isFresh = false) := by
  have hs := subSession_eq _ _ _ hfresh hwait
  have n1 := E.amf0_ne_audio
  have n2 := E.amf0_ne_video
  have n3 := E.audio_ne_video
  have n4 := E.amf0_ne_audio.symm
  constructor
  · intro header timestampAbs message hd
    have hsafe : Safe E header message := by
      intro h
      rcases h with h | h
      · exact absurd (hd ▸ h) n1
      · exact absurd (hd ▸ h) n2
    obtain ⟨w', h, -, hf, hw⟩ := broadcast_member E header timestampAbs message w s hsafe hmem
    refine ⟨w', h, ?_, ?_, ?_⟩
    · rw [hw, hs]
      simp [stepWrites, hd]
    · rw [hf, hs]
      simp [stepFlags, hd, n2]
    · rw [hf, hs]
      simp [stepFlags, hd, n2]
  · intro header timestampAbs message ha hlen
    obtain ⟨w', h, -, hf, hw⟩ :=
      broadcast_member E header timestampAbs message w s (fun _ => hlen) hmem
    refine ⟨w', h, ?_, ?_, ?_⟩
    · rw [hw, hs]
      simp only [stepWrites, Bool.false_eq_true, if_false, if_true, ha, n4, isAACSeqHeader]
    · rw [hf, hs]
      simp [stepFlags, ha, n3]
    · rw [hf, hs]
      simp [stepFlags, ha, n3]

/-- C11 on the waiting sub session at address 1: an AAC sequence header is
written, and the flag stays true. -/
theorem audioMetadataGating_witness :
    ∃ w', broadcastRTMP2RTMP demoEnv (demoHeader 8) 10 [0xaf, 0, 5]
        (demoWorld demoKeys false true) = some w' ∧
      writesTo 1 w'.trace = [some [6, 10, 0xaf, 0, 5]] ∧
      (w'.subSessions 1).waitKeyNalu = true :=
  let ⟨w', h, hw, hk, _⟩ :=
    (audioMetadataGating demoEnv (demoWorld demoKeys false true) 1 (by decide) rfl rfl).2
      (demoHeader 8) 10 [0xaf, 0, 5] rfl (by decide)
  ⟨w', h, hw, hk⟩

/-! ## Index safety -/

/-- C17. Index safety of the type sniffing. If audio and video payloads have
at least two bytes (any other type: any payload, the empty one too),
`broadcastRTMP2RTMP` returns, that is, no index is out of range; an audio or
video message with an empty payload makes it panic in every world, among
them the worlds with no sub session. In general the call returns exactly when
the payload is `InRange`. -/
theorem indexSafety (E : Env) (w : World) (header : Header) (timestampAbs : Int)
    (message : List Nat) :
    (((header.MsgTypeID = E.TypeidAudio ∨ header.MsgTypeID = E.TypeidVideo) →
        2 ≤ message.length) →
      ∃ w', broadcastRTMP2RTMP E header timestampAbs message w = some w') ∧
    ((header.MsgTypeID = E.TypeidAudio ∨ header.MsgTypeID = E.TypeidVideo) →
      broadcastRTMP2RTMP E header timestampAbs [] w = none ∧
      broadcastRTMP2RTMP E header timestampAbs []
        { w with group := { w.group with subSessionSet := SubSessionSet.empty } } = none) ∧
    ((broadcastRTMP2RTMP E header timestampAbs message w).isSome = true ↔
      InRange E header message) := by
  refine ⟨fun hsafe => ?_, fun hav => ?_, broadcast_isSome_iff E header timestampAbs message w⟩
  · obtain ⟨w', h, -⟩ := broadcast_spec E header timestampAbs message w hsafe
    exact ⟨w', h⟩
  · have hin : ¬ InRange E header [] := by
      intro h
      rcases hav with ha | hv
      · rcases h.1 ha with h1 | h1
        · simp at h1
        · simp at h1
      · rcases h.2 hv with h1 | h1
        · simp at h1
        · simp at h1
    exact ⟨broadcast_none E header timestampAbs [] w hin,
      broadcast_none E header timestampAbs [] _ hin⟩

/-- C17 on a group without sub sessions: a two-byte video message goes
through, a video message with an empty payload panics. -/
theorem indexSafety_witness :
    (∃ w', broadcastRTMP2RTMP demoEnv (demoHeader 9) 10 [0x27, 1]
        (demoWorld SubSessionSet.empty true true) = some w') ∧
    broadcastRTMP2RTMP demoEnv (demoHeader 9) 10 []
      (demoWorld SubSessionSet.empty true true) = none :=
  ⟨(indexSafety demoEnv (demoWorld SubSessionSet.empty true true) (demoHeader 9) 10
      [0x27, 1]).1 (by decide),
    ((indexSafety demoEnv (demoWorld SubSessionSet.empty true true) (demoHeader 9) 10
      []).2.1 (Or.inr rfl)).1⟩

/-! ## The message that clears `isFresh` -/

/-- C18. The message that clears `isFresh` is not delivered. For a fresh sub
session `s` of the set and a message whose audio or video payload has at
least two bytes: the call writes to `s` exactly the caches as they were
before the call (nothing when the three are nil), so the packetized message
is among these writes only if it already was a cache; the caches are
refreshed with this message by the same call, after the loop; `isFresh` is
false afterwards, and whatever is delivered later, the writes to `s` are
packetized later messages, so the packetized message reaches `s` only if a
later message packetizes to the same bytes. -/
theorem clearingMessageNotDelivered (E : Env) (w : World) (s : Nat) (header : Header)
    (timestampAbs : Int) (message : List Nat)
    (hsafe : Safe E header message)
    (hmem : s ∈ w.group.subSessionSet.keys)
    (hfresh : (w.subSessions s).isFresh = true) :
    ∃ w' ext, broadcastRTMP2RTMP E header timestampAbs message w = some w' ∧
      w'.trace = w.trace ++ ext ∧
      writesTo s ext =
        [w.group.metadata, w.group.avcKeySeqHeader, w.group.aacSeqHeader].filter
          Option.isSome ∧
      (w.group.metadata = none → w.group.avcKeySeqHeader = none →
        w.group.aacSeqHeader = none → writesTo s ext = []) ∧
      (packetized E header timestampAbs message ∉
          [w.group.metadata, w.group.avcKeySeqHeader, w.group.aacSeqHeader] →
        packetized E header timestampAbs message ∉ writesTo s ext) ∧
      (header.MsgTypeID = E.TypeidDataMessageAMF0 →
        w'.group.metadata = packetized E header timestampAbs message) ∧
      (header.MsgTypeID = E.TypeidVideo → isAVCSeqHeader message →
        w'.group.avcKeySeqHeader = packetized E header timestampAbs message) ∧
      (header.MsgTypeID = E.TypeidAudio → isAACSeqHeader message →
        w'.group.aacSeqHeader = packetized E header timestampAbs message) ∧
      (w'.subSessions s).isFresh = false ∧
      (∀ later : List Msg, (∀ m ∈ later, Safe E m.header m.message) →
        ∃ w'' l, deliver E later w' = some w'' ∧
          writesTo s w''.trace = writesTo s w'.trace ++ l ∧
          l.Sublist (later.map fun m => packetized E m.header m.timestampAbs m.message) ∧
          (packetized E header timestampAbs message ∉
              (later.map fun m => packetized E m.header m.timestampAbs m.message) →
            packetized E header timestampAbs message ∉ l)) := by
  obtain ⟨w', ext, n, h, hg, hf, htr, hw, -⟩ :=
    broadcast_trace E header timestampAbs message w (safe_inRange E header message hsafe)
  have hws : writesTo s ext =
      [w.group.metadata, w.group.avcKeySeqHeader, w.group.aacSeqHeader].filter
        Option.isSome := by
    rw [hw s, if_pos hmem, ← cachedBlobs_eq_filter]
    simp [stepWrites, hfresh]
  have hf' : (w'.subSessions s).isFresh = false := by
    rw [hf s, if_pos hmem]; simp [stepFlags, hfresh]
  refine ⟨w', ext, h, htr, hws, ?_, ?_, ?_, ?_, ?_, hf', ?_⟩
  · intro hm hv ha
    rw [hws, hm, hv, ha]
    rfl
  · intro hnot hin
    rw [hws] at hin
    exact hnot (List.mem_of_mem_filter hin)
  · intro hd
    rw [hg]; simp [stepGroup, hd]
  · intro hv hc
    rw [hg]; simp [stepGroup, hv, hc]
  · intro ha hc
    rw [hg]; simp [stepGroup, ha, hc]
  · intro later hlater
    obtain ⟨w'', l, hd, -, hsub, hwl⟩ := deliver_notFresh E s later w' hlater hf'
    exact ⟨w'', l, hd, hwl, hsub, fun hnot hin => hnot (hsub.subset hin)⟩

/-- C18 on the fresh sub session at address 1: the first message it meets is a
new AVC sequence header; it is written the three old caches, the new header
replaces the cached one, and the inter frame that follows is all it is
written next. -/
theorem clearingMessageNotDelivered_witness :
    ∃ w' ext, broadcastRTMP2RTMP demoEnv (demoHeader 9) 10 [0x17, 0, 5]
        (demoWorld demoKeys true false) = some w' ∧
      writesTo 1 ext = [some [1], some [2], some [3]] ∧
      w'.group.avcKeySeqHeader = some [7, 10, 0x17, 0, 5] ∧
      ∃ w'' l, deliver demoEnv [demoVideo 20 [0x27, 1, 6]] w' = some w'' ∧
        writesTo 1 w''.trace = writesTo 1 w'.trace ++ l ∧
        some [7, 10, 0x17, 0, 5] ∉ l :=
  let ⟨w', ext, h, _, hw, _, _, _, hc, _, _, hl⟩ :=
    clearingMessageNotDelivered demoEnv (demoWorld demoKeys true false) 1 (demoHeader 9) 10
      [0x17, 0, 5] (by decide) (by decide) rfl
  let ⟨w'', l, hd, hwl, _, hn⟩ := hl [demoVideo 20 [0x27, 1, 6]] (by decide)
  ⟨w', ext, h, hw, hc rfl (by decide), w'', l, hd, hwl, hn (by decide)⟩

/-! ## Messages of another type -/

/-- C19. For a message whose type is none of data-AMF0, audio, video: the
outbound header keeps `CSID` at its zero value; the call returns; the
packetized message is written, once, to every sub session of the set that is
neither fresh nor waiting, and nothing is written to one that is not fresh and
waiting; no sub session has its `waitKeyNalu` changed; the three caches are
what they were. -/
theorem otherTypeMessage (E : Env) (w : World) (header : Header) (timestampAbs : Int)
    (message : List Nat)
    (hd : header.MsgTypeID ≠ E.TypeidDataMessageAMF0)
    (ha : header.MsgTypeID ≠ E.TypeidAudio)
    (hv : header.MsgTypeID ≠ E.TypeidVideo) :
    (mkCurrHeader E header timestampAbs message).CSID = 0 ∧
    ∃ w' ext, broadcastRTMP2RTMP E header timestampAbs message w = some w' ∧
      w'.trace = w.trace ++ ext ∧
      (∀ x ∈ w.group.subSessionSet.keys, (w.subSessions x).isFresh = false →
        (w.subSessions x).waitKeyNalu = false →
        writesTo x ext = [packetized E header timestampAbs message]) ∧
      (∀ x ∈ w.group.subSessionSet.keys, (w.subSessions x).isFresh = false →
        (w.subSessions x).waitKeyNalu = true → writesTo x ext = []) ∧
      (∀ x, (w'.subSessions x).waitKeyNalu = (w.subSessions x).waitKeyNalu) ∧
      w'.group.metadata = w.group.metadata ∧
      w'.group.avcKeySeqHeader = w.group.avcKeySeqHeader ∧
      w'.group.aacSeqHeader = w.group.aacSeqHeader := by
  constructor
  · simp [mkCurrHeader, hd, ha, hv, Header.zero]
  · have hin : InRange E header message :=
      ⟨fun c => absurd c ha, fun c => absurd c hv⟩
    obtain ⟨w', ext, n, h, hg, hf, htr, hw, -⟩ :=
      broadcast_trace E header timestampAbs message w hin
    refine ⟨w', ext, h, htr, ?_, ?_, ?_, ?_, ?_, ?_⟩
    · intro x hx hfr hwk
      rw [hw x, if_pos hx]
      simp [stepWrites, hfr, hwk]
    · intro x hx hfr hwk
      rw [hw x, if_pos hx]
      simp [stepWrites, hfr, hwk, hd, ha, hv]
    · intro x
      rw [hf x]
      unfold stepFlags
      split_ifs <;> simp_all
    · rw [hg]; simp [stepGroup, hd]
    · rw [hg]; simp [stepGroup, hv]
    · rw [hg]; simp [stepGroup, ha]

/-- C19 on a command message (type 20) and the waiting sub session at
address 1: nothing is written to it. -/
theorem otherTypeMessage_witness :
    (mkCurrHeader demoEnv (demoHeader 20) 10 [2, 0]).CSID = 0 ∧
    ∃ w' ext, broadcastRTMP2RTMP demoEnv (demoHeader 20) 10 [2, 0]
        (demoWorld demoKeys false true) = some w' ∧
      w'.trace = (demoWorld demoKeys false true).trace ++ ext ∧
      writesTo 1 ext = [] ∧ (w'.subSessions 1).waitKeyNalu = true :=
  let ⟨hc, w', ext, h, htr, _, hno, hk, _⟩ :=
    otherTypeMessage demoEnv (demoWorld demoKeys false true) (demoHeader 20) 10 [2, 0]
      (by decide) (by decide) (by decide)
  ⟨hc, w', ext, h, htr, hno 1 (by decide) rfl rfl, hk 1⟩

/-! ## The input query -/

/-- C20. `IsInExist` returns true exactly when a publisher session is attached;
the pull-session reference has no part in the result, so while a pull is
running in a group without publisher `IsInExist` returns false; and
`IsInExist` and `IsTotalEmpty` are never both true. -/
theorem isInExist_spec (w : World) :
    (IsInExist w = true ↔ w.group.pubSession ≠ none) ∧
    (∀ p : Option Nat,
      IsInExist { w with group := { w.group with pullSession := p } } = IsInExist w) ∧
    (∀ (addr : String) (connectTimeout : Int) (session : Nat) (pullErr : Option String),
      w.group.pubSession = none →
      (pullRun addr connectTimeout session pullErr w).group.pullSession = some session ∧
      IsInExist (pullRun addr connectTimeout session pullErr w) = false) ∧
    ¬ (IsInExist w = true ∧ IsTotalEmpty w = true) := by
  refine ⟨?_, fun _ => rfl, ?_, ?_⟩
  · unfold IsInExist
    cases w.group.pubSession <;> simp
  · intro addr connectTimeout session pullErr hp
    refine ⟨rfl, ?_⟩
    simp [IsInExist, pullRun, hp]
  · unfold IsInExist IsTotalEmpty
    cases w.group.pubSession <;> simp

/-- C20 on a group without publisher in which a pull is running. -/
theorem isInExist_spec_witness :
    (pullRun "upstream:1935" 3000 7 none
      (demoWorld demoKeys true true)).group.pullSession = some 7 ∧
    IsInExist (pullRun "upstream:1935" 3000 7 none (demoWorld demoKeys true true)) = false :=
  (isInExist_spec (demoWorld demoKeys true true)).2.2.1 "upstream:1935" 3000 7 none rfl

/-! ## The observer -/

theorem observerCalls_otherCalls (t : List Event) :
    observerCalls (otherCalls t) = observerCalls t := by
  induction t with
  | nil => rfl
  | cons e t ih =>
    cases e <;>
      simp_all [observerCalls, otherCalls, Event.isMessage2Chunks, List.filter_cons,
        List.filterMap_cons]

theorem observerCalls_flatMap_asyncWrite (keys : List Nat) (f : Nat → List Slice) :
    observerCalls (keys.flatMap fun s => (f s).map (Event.asyncWrite s)) = [] := by
  induction keys with
  | nil => rfl
  | cons k keys ih =>
    rw [List.flatMap_cons, observerCalls_append, ih, List.append_nil]
    unfold observerCalls
    rw [List.filterMap_eq_nil_iff]
    intro e he
    obtain ⟨b, -, rfl⟩ := List.mem_map.mp he
    rfl

theorem ReadRTMPAVMsgCB_some (E : Env) (header : Header) (timestampAbs : Int)
    (message : List Nat) (w w' : World)
    (h : ReadRTMPAVMsgCB E header timestampAbs message w = some w') :
    ∃ w1, broadcastRTMP2RTMP E header timestampAbs message w = some w1 ∧
      w'.group = w1.group ∧ w'.subSessions = w1.subSessions ∧
      w'.trace = w1.trace ++
        (match w1.group.obs with
          | some obs => [Event.obsReadRTMPAVMsgCB obs header timestampAbs message]
          | none => []) := by
  unfold ReadRTMPAVMsgCB at h
  obtain ⟨w1, h1, h2⟩ := Option.map_eq_some'.mp h
  refine ⟨w1, h1, ?_⟩
  cases ho : w1.group.obs with
  | none =>
    rw [ho] at h2
    simp only at h2
    subst h2
    simp
  | some obs =>
    rw [ho] at h2
    simp only at h2
    subst h2
    simp

/-- C12. Observer delivery. Every call of `ReadRTMPAVMsgCB` that returns is
the broadcast followed by the observer: the group and the sub sessions are
those the broadcast leaves (all writes and cache updates are done), the
broadcast itself calls no observer, and with an observer registered the trace
of the broadcast is followed by exactly one call of that observer with the
header, timestamp and payload that were passed in; without an observer the
trace is that of the broadcast. The call returns whenever audio and video
payloads have at least two bytes. -/
theorem observerDelivery (E : Env) (header : Header) (timestampAbs : Int)
    (message : List Nat) (w : World) :
    (∀ w', ReadRTMPAVMsgCB E header timestampAbs message w = some w' →
      ∃ w1 ext, broadcastRTMP2RTMP E header timestampAbs message w = some w1 ∧
        w1.trace = w.trace ++ ext ∧ observerCalls ext = [] ∧
        w'.group = w1.group ∧ w'.subSessions = w1.subSessions ∧
        (∀ obs, w.group.obs = some obs →
          w'.trace = w1.trace ++ [Event.obsReadRTMPAVMsgCB obs header timestampAbs message] ∧
          observerCalls w'.trace =
            observerCalls w.trace ++ [(obs, header, timestampAbs, message)]) ∧
        (w.group.obs = none →
          w'.trace = w1.trace ∧ observerCalls w'.trace = observerCalls w.trace)) ∧
    (Safe E header message →
      ∃ w', ReadRTMPAVMsgCB E header timestampAbs message w = some w') := by
  constructor
  · intro w' h
    obtain ⟨w1, h1, hg, hs, ht⟩ := ReadRTMPAVMsgCB_some E header timestampAbs message w w' h
    obtain ⟨w1', ext, n, h1', hg1, -, htr, -, hother, -⟩ :=
      broadcast_trace E header timestampAbs message w
        (broadcast_some_inRange E header timestampAbs message w w1 h1)
    rw [h1] at h1'
    simp only [Option.some.injEq] at h1'
    subst h1'
    have hobs : w1.group.obs = w.group.obs := by rw [hg1]; rfl
    have hext : observerCalls ext = [] := by
      rw [← observerCalls_otherCalls, hother]
      exact observerCalls_flatMap_asyncWrite _ _
    refine ⟨w1, ext, h1, htr, hext, hg, hs, ?_, ?_⟩
    · intro obs ho
      rw [hobs, ho] at ht
      refine ⟨ht, ?_⟩
      rw [ht, htr]
      simp only [observerCalls_append, hext, List.append_nil]
      rfl
    · intro ho
      rw [hobs, ho] at ht
      simp only [List.append_nil] at ht
      refine ⟨ht, ?_⟩
      rw [ht, htr]
      simp only [observerCalls_append, hext, List.append_nil]
  · intro hsafe
    obtain ⟨w', h, -⟩ := ReadRTMPAVMsgCB_spec E header timestampAbs message w hsafe
    exact ⟨w', h⟩

/-- C12 on a group with the observer 9 registered and a streaming sub session:
one inter frame is delivered, and the observer is called once, with that
frame. -/
theorem observerDelivery_witness :
    ∃ w', ReadRTMPAVMsgCB demoEnv (demoHeader 9) 10 [0x27, 1, 5]
        (SetObserver (some 9) (demoWorld demoKeys false false)) = some w' ∧
      observerCalls w'.trace = [(9, demoHeader 9, 10, [0x27, 1, 5])] :=
  let ⟨w', h⟩ :=
    (observerDelivery demoEnv (demoHeader 9) 10 [0x27, 1, 5]
      (SetObserver (some 9) (demoWorld demoKeys false false))).2 (by decide)
  let ⟨_, _, _, _, _, _, _, ho, _⟩ :=
    (observerDelivery demoEnv (demoHeader 9) 10 [0x27, 1, 5]
      (SetObserver (some 9) (demoWorld demoKeys false false))).1 w' h
  ⟨w', h, (ho 9 rfl).2⟩

/-! ## Flags are only cleared -/

theorem stepFlags_cleared (E : Env) (header : Header) (message : List Nat) (s : SubSession) :
    (s.isFresh = false → (stepFlags E header message s).isFresh = false) ∧
    (s.waitKeyNalu = false → (stepFlags E header message s).waitKeyNalu = false) := by
  unfold stepFlags
  split_ifs <;> simp_all

theorem phase_le_of_cleared (a b : SubSession)
    (h : (a.isFresh = false → b.isFresh = false) ∧
      (a.waitKeyNalu = false → b.waitKeyNalu = false)) :
    phase a ≤ phase b := by
  obtain ⟨af, ak⟩ := a
  obtain ⟨bf, bk⟩ := b
  cases af <;> cases ak <;> cases bf <;> cases bk <;> simp_all [phase]

theorem loopBody_some_cleared (E : Env) (g : Group) (header : Header) (message : List Nat)
    (currHeader : Header) (st st' : LoopState) (session : Nat)
    (h : loopBody E g header message currHeader st session = some st') (x : Nat) :
    ((st.subSessions x).isFresh = false → (st'.subSessions x).isFresh = false) ∧
    ((st.subSessions x).waitKeyNalu = false → (st'.subSessions x).waitKeyNalu = false) := by
  by_cases hin : InRange E header message
  · rw [loopBody_eq_inRange E g header message currHeader st session hin] at h
    simp only [Option.some.injEq] at h
    rw [← h]
    simp only
    by_cases hx : x = session
    · subst hx
      rw [Function.update_same]
      exact stepFlags_cleared E header message _
    · rw [Function.update_noteq hx]
      exact ⟨id, id⟩
  · have hsub := ensureChunks_subSessions E message currHeader st
    unfold loopBody at h
    simp only [] at h
    generalize st.ensureChunks E message currHeader = st1 at h hsub
    by_cases hf : (st1.subSessions session).isFresh = true
    · rw [if_pos hf] at h
      simp only [Option.some.injEq] at h
      rw [← h]
      have hs : ∀ (c1 c2 c3 : Prop) [Decidable c1] [Decidable c2] [Decidable c3],
          (if c3 then
            ((if c2 then
              ((if c1 then st1.asyncWrite session g.metadata else st1).asyncWrite session
                g.avcKeySeqHeader)
              else (if c1 then st1.asyncWrite session g.metadata else st1)).asyncWrite session
                g.aacSeqHeader)
            else (if c2 then
              ((if c1 then st1.asyncWrite session g.metadata else st1).asyncWrite session
                g.avcKeySeqHeader)
              else (if c1 then st1.asyncWrite session g.metadata else st1))).subSessions
            = st.subSessions := by
        intro c1 c2 c3 _ _ _
        split_ifs <;> exact hsub
      simp only [hs]
      by_cases hx : x = session
      · subst hx
        rw [Function.update_same]
        exact ⟨fun _ => rfl, id⟩
      · rw [Function.update_noteq hx]
        exact ⟨id, id⟩
    · rw [if_neg hf] at h
      by_cases hw : (st1.subSessions session).waitKeyNalu = true
      · rw [if_pos hw] at h
        by_cases hd : header.MsgTypeID = E.TypeidDataMessageAMF0
        · rw [if_pos hd] at h
          simp only [Option.some.injEq] at h
          rw [← h]
          simp only [LoopState.asyncWrite, hsub]
          exact ⟨id, id⟩
        · rw [if_neg hd] at h
          by_cases hau : header.MsgTypeID = E.TypeidAudio
          · rw [if_pos hau] at h
            obtain ⟨c, -, rfl⟩ := Option.map_eq_some'.mp h
            have : (if c = true then st1.asyncWrite session st1.absChunks
                else st1).subSessions = st.subSessions := by
              split_ifs <;> exact hsub
            rw [this]
            exact ⟨id, id⟩
          · rw [if_neg hau] at h
            by_cases hvi : header.MsgTypeID = E.TypeidVideo
            · rw [if_pos hvi] at h
              obtain ⟨c1, -, h2⟩ := Option.bind_eq_some.mp h
              obtain ⟨c2, -, rfl⟩ := Option.map_eq_some'.mp h2
              cases c1 <;> cases c2 <;> simp only [LoopState.asyncWrite, hsub, if_true,
                if_false, Bool.false_eq_true]
              · exact ⟨id, id⟩
              · by_cases hx : x = session
                · subst hx
                  rw [Function.update_same]
                  exact ⟨id, fun _ => rfl⟩
                · rw [Function.update_noteq hx]
                  exact ⟨id, id⟩
              · exact ⟨id, id⟩
              · by_cases hx : x = session
                · subst hx
                  rw [Function.update_same]
                  exact ⟨id, fun _ => rfl⟩
                · rw [Function.update_noteq hx]
                  exact ⟨id, id⟩
            · rw [if_neg hvi] at h
              simp only [Option.some.injEq] at h
              rw [← h, hsub]
              exact ⟨id, id⟩
      · rw [if_neg hw] at h
        simp only [Option.some.injEq] at h
        rw [← h]
        simp only [LoopState.asyncWrite, hsub]
        exact ⟨id, id⟩

theorem rangeLoop_some_cleared (E : Env) (g : Group) (header : Header) (message : List Nat)
    (currHeader : Header) :
    ∀ (keys : List Nat) (st st' : LoopState),
      rangeLoop E g header message currHeader keys st = some st' → ∀ x,
      ((st.subSessions x).isFresh = false → (st'.subSessions x).isFresh = false) ∧
      ((st.subSessions x).waitKeyNalu = false → (st'.subSessions x).waitKeyNalu = false) := by
  intro keys
  induction keys with
  | nil =>
    intro st st' h x
    simp only [rangeLoop, Option.some.injEq] at h
    rw [← h]
    exact ⟨id, id⟩
  | cons session rest ih =>
    intro st st' h x
    simp only [rangeLoop] at h
    obtain ⟨st1, h1, h2⟩ := Option.bind_eq_some.mp h
    have a := loopBody_some_cleared E g header message currHeader st st1 session h1 x
    have b := ih st1 st' h2 x
    exact ⟨fun hx => b.1 (a.1 hx), fun hx => b.2 (a.2 hx)⟩

theorem ReadRTMPAVMsgCB_some_cleared (E : Env) (header : Header) (timestampAbs : Int)
    (message : List Nat) (w w' : World)
    (h : ReadRTMPAVMsgCB E header timestampAbs message w = some w') (x : Nat) :
    ((w.subSessions x).isFresh = false → (w'.subSessions x).isFresh = false) ∧
    ((w.subSessions x).waitKeyNalu = false → (w'.subSessions x).waitKeyNalu = false) := by
  obtain ⟨w1, h1, -, hs, -⟩ := ReadRTMPAVMsgCB_some E header timestampAbs message w w' h
  obtain ⟨w1', ext, n, h1', -, hf, -⟩ :=
    broadcast_trace E header timestampAbs message w
      (broadcast_some_inRange E header timestampAbs message w w1 h1)
  rw [h1] at h1'
  simp only [Option.some.injEq] at h1'
  subst h1'
  rw [hs, hf x]
  split_ifs
  · exact stepFlags_cleared E header message _
  · exact ⟨id, id⟩

theorem run_some_cleared (E : Env) (op : Op) (w w' : World) (h : op.run E w = some w')
    (x : Nat) :
    ((w.subSessions x).isFresh = false → (w'.subSessions x).isFresh = false) ∧
    ((w.subSessions x).waitKeyNalu = false → (w'.subSessions x).waitKeyNalu = false) := by
  cases op with
  | readRTMPAVMsgCB header timestampAbs message =>
    exact ReadRTMPAVMsgCB_some_cleared E header timestampAbs message w w' h x
  | pull addr connectTimeout session pullErr waitLoopErr =>
    simp only [Op.run, Option.some.injEq] at h
    rw [← h]
    cases waitLoopErr <;> exact ⟨id, id⟩
  | _ =>
    simp only [Op.run, Option.some.injEq] at h
    rw [← h]
    exact ⟨id, id⟩

theorem runOps_some_cleared (E : Env) :
    ∀ (ops : List Op) (w w' : World), runOps E ops w = some w' → ∀ x,
      ((w.subSessions x).isFresh = false → (w'.subSessions x).isFresh = false) ∧
      ((w.subSessions x).waitKeyNalu = false → (w'.subSessions x).waitKeyNalu = false) := by
  intro ops
  induction ops with
  | nil =>
    intro w w' h x
    simp only [runOps, Option.some.injEq] at h
    rw [← h]
    exact ⟨id, id⟩
  | cons op rest ih =>
    intro w w' h x
    simp only [runOps] at h
    obtain ⟨w1, h1, h2⟩ := Option.bind_eq_some.mp h
    have a := run_some_cleared E op w w1 h1 x
    have b := ih w1 w' h2 x
    exact ⟨fun hx => b.1 (a.1 hx), fun hx => b.2 (a.2 hx)⟩

/-- C13. Monotonic subscriber state. No call of a method of the group
(`AddSubSession`, `DelSubSession`, `AddPubSession`, `DelPubSession`,
`ReadRTMPAVMsgCB`, and `SetObserver` and `Pull` as well) that returns changes
the `isFresh` or the `waitKeyNalu` of any sub session from false to true; so
along every sequence of calls the flags are only cleared and the state of
every sub session (Fresh, Waiting-for-key-frame, Streaming) only moves forward.
The same holds after any number of completed passes of the `range` loop, so
also for what a call has done when it panics. -/
theorem flagsOnlyCleared (E : Env) :
    (∀ (op : Op) (w w' : World), op.run E w = some w' → ∀ x,
      ((w.subSessions x).isFresh = false → (w'.subSessions x).isFresh = false) ∧
      ((w.subSessions x).waitKeyNalu = false → (w'.subSessions x).waitKeyNalu = false)) ∧
    (∀ (ops : List Op) (w w' : World), runOps E ops w = some w' → ∀ x,
      ((w.subSessions x).isFresh = false → (w'.subSessions x).isFresh = false) ∧
      ((w.subSessions x).waitKeyNalu = false → (w'.subSessions x).waitKeyNalu = false) ∧
      phase (w.subSessions x) ≤ phase (w'.subSessions x)) ∧
    (∀ (g : Group) (header : Header) (message : List Nat) (currHeader : Header)
      (keys : List Nat) (st st' : LoopState),
      rangeLoop E g header message currHeader keys st = some st' → ∀ x,
      ((st.subSessions x).isFresh = false → (st'.subSessions x).isFresh = false) ∧
      ((st.subSessions x).waitKeyNalu = false → (st'.subSessions x).waitKeyNalu = false)) := by
  refine ⟨run_some_cleared E, ?_, ?_⟩
  · intro ops w w' h x
    have a := runOps_some_cleared E ops w w' h x
    exact ⟨a.1, a.2, phase_le_of_cleared _ _ a⟩
  · intro g header message currHeader keys st st' h x
    exact rangeLoop_some_cleared E g header message currHeader keys st st' h x

/-- C13 on a run of four calls over a group whose sub session 1 waits for a
key frame: a sub session is attached, a key frame is delivered, a publisher
is attached, the sub session is detached; the sub session 1 has moved from
Waiting-for-key-frame to Streaming and is still not fresh. -/
theorem flagsOnlyCleared_witness :
    ∃ w', runOps demoEnv
        [Op.addSubSession 2, Op.readRTMPAVMsgCB (demoHeader 9) 10 [0x17, 1, 5],
          Op.addPubSession 3, Op.delSubSession 2]
        (demoWorld demoKeys false true) = some w' ∧
      phase ((demoWorld demoKeys false true).subSessions 1) = 1 ∧
      phase (w'.subSessions 1) = 2 ∧
      (w'.subSessions 1).isFresh = false ∧
      phase ((demoWorld demoKeys false true).subSessions 1) ≤ phase (w'.subSessions 1) :=
  ⟨_, rfl, by decide, by decide,
    ((flagsOnlyCleared demoEnv).2.1
      [Op.addSubSession 2, Op.readRTMPAVMsgCB (demoHeader 9) 10 [0x17, 1, 5],
        Op.addPubSession 3, Op.delSubSession 2]
      (demoWorld demoKeys false true) _ rfl 1).1 rfl,
    ((flagsOnlyCleared demoEnv).2.1
      [Op.addSubSession 2, Op.readRTMPAVMsgCB (demoHeader 9) 10 [0x17, 1, 5],
        Op.addPubSession 3, Op.delSubSession 2]
      (demoWorld demoKeys false true) _ rfl 1).2.2⟩

/-! ## Independence from the other sub sessions -/

theorem loopBody_none (E : Env) (g : Group) (header : Header) (message : List Nat)
    (currHeader : Header) (st : LoopState) (session : Nat)
    (h : loopBody E g header message currHeader st session = none) :
    (st.subSessions session).isFresh = false ∧
    (st.subSessions session).waitKeyNalu = true ∧
    (header.MsgTypeID = E.TypeidAudio ∨ header.MsgTypeID = E.TypeidVideo) ∧
    ¬ InRange E header message := by
  have hnin : ¬ InRange E header message := by
    intro hin
    rw [loopBody_eq_inRange E g header message currHeader st session hin] at h
    exact absurd h (by simp)
  have hsub := ensureChunks_subSessions E message currHeader st
  unfold loopBody at h
  simp only [] at h
  rw [hsub] at h
  by_cases hf : (st.subSessions session).isFresh = true
  · rw [if_pos hf] at h
    exact absurd h (by simp)
  · rw [if_neg hf] at h
    by_cases hw : (st.subSessions session).waitKeyNalu = true
    · rw [if_pos hw] at h
      refine ⟨by simpa using hf, hw, ?_, hnin⟩
      by_cases hd : header.MsgTypeID = E.TypeidDataMessageAMF0
      · rw [if_pos hd] at h
        exact absurd h (by simp)
      · rw [if_neg hd] at h
        by_cases hau : header.MsgTypeID = E.TypeidAudio
        · exact Or.inl hau
        · rw [if_neg hau] at h
          by_cases hvi : header.MsgTypeID = E.TypeidVideo
          · exact Or.inr hvi
          · rw [if_neg hvi] at h
            exact absurd h (by simp)
    · rw [if_neg hw] at h
      exact absurd h (by simp)

theorem rangeLoopEnd_of_some (E : Env) (g : Group) (header : Header) (message : List Nat)
    (currHeader : Header) :
    ∀ (keys : List Nat) (st st' : LoopState),
      rangeLoop E g header message currHeader keys st = some st' →
      rangeLoopEnd E g header message currHeader keys st = (st', false) := by
  intro keys
  induction keys with
  | nil =>
    intro st st' h
    simp only [rangeLoop, Option.some.injEq] at h
    rw [← h]; rfl
  | cons session rest ih =>
    intro st st' h
    simp only [rangeLoop] at h
    obtain ⟨st1, h1, h2⟩ := Option.bind_eq_some.mp h
    simp only [rangeLoopEnd, h1]
    exact ih st1 st' h2

theorem rangeLoopEnd_of_none (E : Env) (g : Group) (header : Header) (message : List Nat)
    (currHeader : Header) :
    ∀ (keys : List Nat) (st : LoopState),
      rangeLoop E g header message currHeader keys st = none →
      (rangeLoopEnd E g header message currHeader keys st).2 = true := by
  intro keys
  induction keys with
  | nil =>
    intro st h
    simp [rangeLoop] at h
  | cons session rest ih =>
    intro st h
    simp only [rangeLoop] at h
    cases h1 : loopBody E g header message currHeader st session with
    | none => simp only [rangeLoopEnd, h1]
    | some st1 =>
      rw [h1, Option.some_bind] at h
      simp only [rangeLoopEnd, h1]
      exact ih st1 h

theorem broadcastEnd_of_some (E : Env) (header : Header) (timestampAbs : Int)
    (message : List Nat) (w w' : World)
    (h : broadcastRTMP2RTMP E header timestampAbs message w = some w') :
    broadcastEnd E header timestampAbs message w = (w', false) := by
  unfold broadcastRTMP2RTMP at h
  obtain ⟨st1, h1, h2⟩ := Option.bind_eq_some.mp h
  obtain ⟨r, h3, rfl⟩ := Option.map_eq_some'.mp h2
  unfold broadcastEnd
  simp only [rangeLoopEnd_of_some E w.group header message _ _ _ _ h1, h3]

theorem broadcastEnd_of_none (E : Env) (header : Header) (timestampAbs : Int)
    (message : List Nat) (w : World)
    (h : broadcastRTMP2RTMP E header timestampAbs message w = none) :
    (broadcastEnd E header timestampAbs message w).2 = true := by
  unfold broadcastRTMP2RTMP at h
  simp only [] at h
  unfold broadcastEnd
  simp only []
  cases h1 : rangeLoop E w.group header message (mkCurrHeader E header timestampAbs message)
      w.group.subSessionSet.keys
      { absChunks := none, subSessions := w.subSessions, trace := w.trace } with
  | none =>
    have hp := rangeLoopEnd_of_none E w.group header message _ _ _ h1
    generalize rangeLoopEnd E w.group header message
      (mkCurrHeader E header timestampAbs message) w.group.subSessionSet.keys
      { absChunks := none, subSessions := w.subSessions, trace := w.trace } = r at hp
    obtain ⟨st1, b⟩ := r
    simp only at hp
    subst hp
    rfl
  | some st1 =>
    rw [h1, Option.some_bind] at h
    rw [rangeLoopEnd_of_some E w.group header message _ _ _ _ h1]
    cases h3 : updateCaches E w.group header message
        (mkCurrHeader E header timestampAbs message) st1 with
    | none => simp only [h3]
    | some r => rw [h3] at h; simp at h

/-- The claim C14 as stated fails for a call that panics. Two worlds with the
same caches and the same flags for the fresh sub session 2, which is in both
sets; in the second the set also holds the sub session 1, not fresh and
waiting, visited first. An audio message with an empty payload arrives. In the
first world the call writes the three cached blobs to 2 and clears its
`isFresh` before it panics in the cache `switch` (line 225); in the second it
panics in the pass of 1 (line 189), and 2 is written nothing and is still
fresh. -/
theorem fanOutIndependence_counterexample :
    2 ∈ (demoWorldMixed demoKeysB).group.subSessionSet.keys ∧
    2 ∈ (demoWorldMixed demoKeys2).group.subSessionSet.keys ∧
    (demoWorldMixed demoKeysB).subSessions 2 = (demoWorldMixed demoKeys2).subSessions 2 ∧
    (demoWorldMixed demoKeysB).group.metadata = (demoWorldMixed demoKeys2).group.metadata ∧
    (demoWorldMixed demoKeysB).group.avcKeySeqHeader
      = (demoWorldMixed demoKeys2).group.avcKeySeqHeader ∧
    (demoWorldMixed demoKeysB).group.aacSeqHeader
      = (demoWorldMixed demoKeys2).group.aacSeqHeader ∧
    writesTo 2 (broadcastEnd demoEnv (demoHeader 8) 10 [] (demoWorldMixed demoKeysB)).1.trace
      = [some [1], some [2], some [3]] ∧
    writesTo 2 (broadcastEnd demoEnv (demoHeader 8) 10 [] (demoWorldMixed demoKeys2)).1.trace
      = [] ∧
    ((broadcastEnd demoEnv (demoHeader 8) 10 []
      (demoWorldMixed demoKeysB)).1.subSessions 2).isFresh = false ∧
    ((broadcastEnd demoEnv (demoHeader 8) 10 []
      (demoWorldMixed demoKeys2)).1.subSessions 2).isFresh = true ∧
    (broadcastEnd demoEnv (demoHeader 8) 10 [] (demoWorldMixed demoKeysB)).2 = true ∧
    (broadcastEnd demoEnv (demoHeader 8) 10 [] (demoWorldMixed demoKeys2)).2 = true := by
  decide

theorem stepWrites_congr_caches (E : Env) (g1 g2 : Group) (header : Header)
    (message : List Nat) (P : Slice) (s : SubSession)
    (hm : g1.metadata = g2.metadata) (hv : g1.avcKeySeqHeader = g2.avcKeySeqHeader)
    (ha : g1.aacSeqHeader = g2.aacSeqHeader) :
    stepWrites E g1 header message P s = stepWrites E g2 header message P s := by
  unfold stepWrites cachedBlobs
  rw [hm, hv, ha]

/-- C14, amended. Fan-out isolation as independence, for calls that return.
Take two worlds that agree on the three caches and on the flags of a sub
session `B` that is in both sets, and that differ at will in the other sub
sessions of the set and in their flags. For every message,
`broadcastRTMP2RTMP` returns in one exactly when it returns in the other, and
whenever it returns the byte slices written to `B` by the call are the same,
in the same order, `B` is left with the same flags, and the three caches are
the same; the call returns whenever audio and video payloads have at least two
bytes. -/
theorem fanOutIndependence (E : Env) (header : Header) (timestampAbs : Int)
    (message : List Nat) (w1 w2 : World) (B : Nat)
    (hB1 : B ∈ w1.group.subSessionSet.keys) (hB2 : B ∈ w2.group.subSessionSet.keys)
    (hflags : w1.subSessions B = w2.subSessions B)
    (hm : w1.group.metadata = w2.group.metadata)
    (hv : w1.group.avcKeySeqHeader = w2.group.avcKeySeqHeader)
    (ha : w1.group.aacSeqHeader = w2.group.aacSeqHeader) :
    ((broadcastRTMP2RTMP E header timestampAbs message w1).isSome =
      (broadcastRTMP2RTMP E header timestampAbs message w2).isSome) ∧
    (∀ w1' w2', broadcastRTMP2RTMP E header timestampAbs message w1 = some w1' →
      broadcastRTMP2RTMP E header timestampAbs message w2 = some w2' →
      (∃ ext1 ext2, w1'.trace = w1.trace ++ ext1 ∧ w2'.trace = w2.trace ++ ext2 ∧
        writesTo B ext1 = writesTo B ext2) ∧
      w1'.subSessions B = w2'.subSessions B ∧
      w1'.group.metadata = w2'.group.metadata ∧
      w1'.group.avcKeySeqHeader = w2'.group.avcKeySeqHeader ∧
      w1'.group.aacSeqHeader = w2'.group.aacSeqHeader) ∧
    (Safe E header message →
      ∃ w1' w2', broadcastRTMP2RTMP E header timestampAbs message w1 = some w1' ∧
        broadcastRTMP2RTMP E header timestampAbs message w2 = some w2') := by
  refine ⟨?_, ?_, ?_⟩
  · have i1 := broadcast_isSome_iff E header timestampAbs message w1
    have i2 := broadcast_isSome_iff E header timestampAbs message w2
    by_cases hin : InRange E header message
    · rw [i1.mpr hin, i2.mpr hin]
    · have e1 : (broadcastRTMP2RTMP E header timestampAbs message w1).isSome = false := by
        rw [broadcast_none E header timestampAbs message w1 hin]; rfl
      have e2 : (broadcastRTMP2RTMP E header timestampAbs message w2).isSome = false := by
        rw [broadcast_none E header timestampAbs message w2 hin]; rfl
      rw [e1, e2]
  · intro w1' w2' h1 h2
    have hin := broadcast_some_inRange E header timestampAbs message w1 w1' h1
    obtain ⟨v1, ext1, n1, e1, g1, f1, t1, wr1, -⟩ :=
      broadcast_trace E header timestampAbs message w1 hin
    obtain ⟨v2, ext2, n2, e2, g2, f2, t2, wr2, -⟩ :=
      broadcast_trace E header timestampAbs message w2 hin
    rw [h1] at e1
    rw [h2] at e2
    simp only [Option.some.injEq] at e1 e2
    subst e1 e2
    refine ⟨⟨ext1, ext2, t1, t2, ?_⟩, ?_, ?_, ?_, ?_⟩
    · rw [wr1 B, wr2 B, if_pos hB1, if_pos hB2, hflags]
      exact stepWrites_congr_caches E _ _ header message _ _ hm hv ha
    · rw [f1 B, f2 B, if_pos hB1, if_pos hB2, hflags]
    · rw [g1, g2]; simp only [stepGroup, hm]
    · rw [g1, g2]; simp only [stepGroup, hv]
    · rw [g1, g2]; simp only [stepGroup, ha]
  · intro hsafe
    obtain ⟨w1', h1, -⟩ := broadcast_spec E header timestampAbs message w1 hsafe
    obtain ⟨w2', h2, -⟩ := broadcast_spec E header timestampAbs message w2 hsafe
    exact ⟨w1', w2', h1, h2⟩

/-- C14 on the waiting sub session 1, alone in the set in one world and
together with the sub session 2 in the other: a key frame is written to it in
both, and it stops waiting in both. -/
theorem fanOutIndependence_witness :
    ∃ w1' w2' ext1 ext2,
      broadcastRTMP2RTMP demoEnv (demoHeader 9) 10 [0x17, 1, 5]
        (demoWorld demoKeys false true) = some w1' ∧
      broadcastRTMP2RTMP demoEnv (demoHeader 9) 10 [0x17, 1, 5]
        (demoWorld demoKeys2 false true) = some w2' ∧
      w1'.trace = (demoWorld demoKeys false true).trace ++ ext1 ∧
      w2'.trace = (demoWorld demoKeys2 false true).trace ++ ext2 ∧
      writesTo 1 ext1 = writesTo 1 ext2 ∧
      w1'.subSessions 1 = w2'.subSessions 1 :=
  let ⟨w1', w2', h1, h2⟩ :=
    (fanOutIndependence demoEnv (demoHeader 9) 10 [0x17, 1, 5]
      (demoWorld demoKeys false true) (demoWorld demoKeys2 false true) 1
      (by decide) (by decide) rfl rfl rfl rfl).2.2 (by decide)
  let ⟨⟨ext1, ext2, t1, t2, hw⟩, hf, _⟩ :=
    (fanOutIndependence demoEnv (demoHeader 9) 10 [0x17, 1, 5]
      (demoWorld demoKeys false true) (demoWorld demoKeys2 false true) 1
      (by decide) (by decide) rfl rfl rfl rfl).2.1 w1' w2' h1 h2
  ⟨w1', w2', ext1, ext2, h1, h2, t1, t2, hw, hf⟩

/-! ## The outbound header -/

theorem mkCurrHeader_congr (E : Env) (h1 h2 : Header) (timestampAbs : Int)
    (message : List Nat) (hty : h1.MsgTypeID = h2.MsgTypeID) :
    mkCurrHeader E h1 timestampAbs message = mkCurrHeader E h2 timestampAbs message := by
  unfold mkCurrHeader
  rw [hty]

theorem loopBody_congr (E : Env) (g : Group) (h1 h2 : Header) (message : List Nat)
    (currHeader : Header) (st : LoopState) (session : Nat)
    (hty : h1.MsgTypeID = h2.MsgTypeID) :
    loopBody E g h1 message currHeader st session
      = loopBody E g h2 message currHeader st session := by
  unfold loopBody
  rw [hty]

theorem rangeLoop_congr (E : Env) (g : Group) (h1 h2 : Header) (message : List Nat)
    (currHeader : Header) (hty : h1.MsgTypeID = h2.MsgTypeID) :
    ∀ (keys : List Nat) (st : LoopState),
      rangeLoop E g h1 message currHeader keys st
        = rangeLoop E g h2 message currHeader keys st := by
  intro keys
  induction keys with
  | nil => intro st; rfl
  | cons session rest ih =>
    intro st
    simp only [rangeLoop]
    rw [loopBody_congr E g h1 h2 message currHeader st session hty]
    cases loopBody E g h2 message currHeader st session with
    | none => rfl
    | some st1 => exact ih st1

theorem updateCaches_congr (E : Env) (g : Group) (h1 h2 : Header) (message : List Nat)
    (currHeader : Header) (st : LoopState) (hty : h1.MsgTypeID = h2.MsgTypeID) :
    updateCaches E g h1 message currHeader st = updateCaches E g h2 message currHeader st := by
  unfold updateCaches
  rw [hty]

theorem broadcast_congr (E : Env) (h1 h2 : Header) (timestampAbs : Int)
    (message : List Nat) (w : World) (hty : h1.MsgTypeID = h2.MsgTypeID) :
    broadcastRTMP2RTMP E h1 timestampAbs message w
      = broadcastRTMP2RTMP E h2 timestampAbs message w := by
  unfold broadcastRTMP2RTMP
  simp only [mkCurrHeader_congr E h1 h2 timestampAbs message hty,
    rangeLoop_congr E w.group h1 h2 message _ hty]
  congr 1
  funext st1
  rw [updateCaches_congr E w.group h1 h2 message _ st1 hty]

/-- C15. Outbound header construction. The header built for the packetizer has
`MsgLen` the length of the payload, `Timestamp` the absolute timestamp,
`MsgTypeID` the inbound type and `MsgStreamID` `MSID1`; its `CSID` is `CSIDAMF`
for data-AMF0, `CSIDAudio` for audio, `CSIDVideo` for video. Of the inbound
header only `MsgTypeID` is used: two inbound headers with the same type give
the same broadcast. Every call of `Message2Chunks` that a broadcast makes has
the payload, this header, no previous header and `LocalChunkSize` as
arguments. -/
theorem outboundHeader (E : Env) (header : Header) (timestampAbs : Int)
    (message : List Nat) :
    (mkCurrHeader E header timestampAbs message).MsgLen = (message.length : Int) ∧
    (mkCurrHeader E header timestampAbs message).Timestamp = timestampAbs ∧
    (mkCurrHeader E header timestampAbs message).MsgTypeID = header.MsgTypeID ∧
    (mkCurrHeader E header timestampAbs message).MsgStreamID = E.MSID1 ∧
    (header.MsgTypeID = E.TypeidDataMessageAMF0 →
      (mkCurrHeader E header timestampAbs message).CSID = E.CSIDAMF) ∧
    (header.MsgTypeID = E.TypeidAudio →
      (mkCurrHeader E header timestampAbs message).CSID = E.CSIDAudio) ∧
    (header.MsgTypeID = E.TypeidVideo →
      (mkCurrHeader E header timestampAbs message).CSID = E.CSIDVideo) ∧
    (∀ (header2 : Header) (w : World), header2.MsgTypeID = header.MsgTypeID →
      broadcastRTMP2RTMP E header2 timestampAbs message w
        = broadcastRTMP2RTMP E header timestampAbs message w) ∧
    (∀ (w w' : World), broadcastRTMP2RTMP E header timestampAbs message w = some w' →
      ∃ ext, w'.trace = w.trace ++ ext ∧
        ∀ e ∈ ext, e.isMessage2Chunks = true →
          e = Event.message2Chunks message (mkCurrHeader E header timestampAbs message) none
            E.LocalChunkSize) := by
  have n4 := E.amf0_ne_audio.symm
  have n5 := E.amf0_ne_video.symm
  have n6 := E.audio_ne_video.symm
  refine ⟨?_, ?_, ?_, ?_, ?_, ?_, ?_, ?_, ?_⟩
  · unfold mkCurrHeader; simp only []; split_ifs <;> rfl
  · unfold mkCurrHeader; simp only []; split_ifs <;> rfl
  · unfold mkCurrHeader; simp only []; split_ifs <;> rfl
  · unfold mkCurrHeader; simp only []; split_ifs <;> rfl
  · intro h; simp [mkCurrHeader, h]
  · intro h; simp [mkCurrHeader, h, n4]
  · intro h; simp [mkCurrHeader, h, n5, n6]
  · intro header2 w hty
    exact broadcast_congr E header2 header timestampAbs message w hty
  · intro w w' h
    obtain ⟨v, ext, n, e, -, -, t, -, -, hpk, -⟩ :=
      broadcast_trace E header timestampAbs message w
        (broadcast_some_inRange E header timestampAbs message w w' h)
    rw [h] at e
    simp only [Option.some.injEq] at e
    subst e
    refine ⟨ext, t, fun ev hev hk => ?_⟩
    have hmem : ev ∈ packetizerCalls ext := by
      unfold packetizerCalls
      exact List.mem_filter.mpr ⟨hev, hk⟩
    rw [hpk] at hmem
    exact List.eq_of_mem_replicate hmem

/-- C15 on an audio message handed in with chunk stream id 4 and timestamp 0 in
its header: the outbound header has the audio chunk stream id, the absolute
timestamp and the length of the payload. -/
theorem outboundHeader_witness :
    mkCurrHeader demoEnv (demoHeader 8) 10 [0xaf, 1, 5]
      = { CSID := 6, MsgLen := 3, Timestamp := 10, MsgTypeID := 8, MsgStreamID := 1 } ∧
    (mkCurrHeader demoEnv (demoHeader 8) 10 [0xaf, 1, 5]).CSID = demoEnv.CSIDAudio :=
  ⟨by decide, (outboundHeader demoEnv (demoHeader 8) 10 [0xaf, 1, 5]).2.2.2.2.2.1 rfl⟩

/-! ## Compute-once packetization -/

theorem stepWrites_notFresh (E : Env) (g : Group) (header : Header) (message : List Nat)
    (P : Slice) (s : SubSession) (hf : s.isFresh = false) :
    stepWrites E g header message P s = [] ∨ stepWrites E g header message P s = [P] := by
  unfold stepWrites
  rw [if_neg (by simp [hf])]
  split_ifs <;> simp

/-- C16. Compute-once packetization. Assume the packetizer returns a non-nil
result for the message. Every call of `broadcastRTMP2RTMP` that returns calls
`Message2Chunks` once when the subscriber set is not empty or the message is
one that gets cached, and not at all otherwise, so at most once whatever the
number of sub sessions; what it writes to a sub session that is not fresh is
nothing or that single result, and each cache is what it was or that single
result. The call is observationally equal to `broadcastEager`, which
packetizes once before the loop: the two return or panic together, and when
they return they leave the same group and the same sub sessions and make the
same calls other than to the packetizer, in the same order. The call returns
whenever audio and video payloads have at least two bytes. -/
theorem computeOnce (E : Env) (header : Header) (timestampAbs : Int) (message : List Nat)
    (w : World) (hP : (packetized E header timestampAbs message).isSome = true) :
    (∀ w', broadcastRTMP2RTMP E header timestampAbs message w = some w' →
      ∃ ext, w'.trace = w.trace ++ ext ∧
        packetizerCalls ext =
          (if w.group.subSessionSet.keys ≠ [] ∨ getsCached E header message
            then [Event.message2Chunks message (mkCurrHeader E header timestampAbs message)
              none E.LocalChunkSize]
            else []) ∧
        (packetizerCalls ext).length ≤ 1 ∧
        (∀ x ∈ w.group.subSessionSet.keys, (w.subSessions x).isFresh = false →
          writesTo x ext = [] ∨ writesTo x ext = [packetized E header timestampAbs message]) ∧
        (w'.group.metadata = w.group.metadata ∨
          w'.group.metadata = packetized E header timestampAbs message) ∧
        (w'.group.avcKeySeqHeader = w.group.avcKeySeqHeader ∨
          w'.group.avcKeySeqHeader = packetized E header timestampAbs message) ∧
        (w'.group.aacSeqHeader = w.group.aacSeqHeader ∨
          w'.group.aacSeqHeader = packetized E header timestampAbs message) ∧
        ∃ we exte, broadcastEager E header timestampAbs message w = some we ∧
          we.group = w'.group ∧ we.subSessions = w'.subSessions ∧
          we.trace = w.trace ++ exte ∧ otherCalls exte = otherCalls ext ∧
          packetizerCalls exte =
            [Event.message2Chunks message (mkCurrHeader E header timestampAbs message)
              none E.LocalChunkSize]) ∧
    ((broadcastRTMP2RTMP E header timestampAbs message w).isSome =
      (broadcastEager E header timestampAbs message w).isSome) ∧
    (Safe E header message →
      ∃ w', broadcastRTMP2RTMP E header timestampAbs message w = some w') := by
  refine ⟨?_, ?_, ?_⟩
  · intro w' h
    have hin := broadcast_some_inRange E header timestampAbs message w w' h
    obtain ⟨v, ext, n, e, hg, hf, ht, hw, hother, hpk, hn⟩ :=
      broadcast_trace E header timestampAbs message w hin
    rw [h] at e
    simp only [Option.some.injEq] at e
    subst e
    obtain ⟨we, exte, ee, heg, hef, het, heother, hepk⟩ :=
      eager_trace E header timestampAbs message w hin hP
    have hcalls : packetizerCalls ext =
        (if w.group.subSessionSet.keys ≠ [] ∨ getsCached E header message
          then [Event.message2Chunks message (mkCurrHeader E header timestampAbs message)
            none E.LocalChunkSize]
          else []) := by
      rw [hpk, hn hP]
      split_ifs <;> rfl
    refine ⟨ext, ht, hcalls, ?_, ?_, ?_, ?_, ?_, we, exte, ee, ?_, ?_, het, ?_, hepk⟩
    · rw [hcalls]
      split_ifs <;> simp
    · intro x hx hfr
      rw [hw x, if_pos hx]
      exact stepWrites_notFresh E _ header message _ _ hfr
    · rw [hg]
      simp only [stepGroup]
      split_ifs
      · exact Or.inr rfl
      · exact Or.inl rfl
    · rw [hg]
      simp only [stepGroup]
      split_ifs
      · exact Or.inr rfl
      · exact Or.inl rfl
    · rw [hg]
      simp only [stepGroup]
      split_ifs
      · exact Or.inr rfl
      · exact Or.inl rfl
    · rw [heg, hg]
    · funext x
      rw [hef x, hf x]
    · rw [heother, hother]
  · by_cases hin : InRange E header message
    · obtain ⟨w', _, _, h, _⟩ := broadcast_trace E header timestampAbs message w hin
      obtain ⟨we, _, he, _⟩ := eager_trace E header timestampAbs message w hin hP
      rw [h, he]
      rfl
    · rw [broadcast_none E header timestampAbs message w hin,
        eager_none E header timestampAbs message w hin]
  · intro hsafe
    obtain ⟨w', h, -⟩ := broadcast_spec E header timestampAbs message w hsafe
    exact ⟨w', h⟩

/-- C16 on a group with two streaming sub sessions and a key frame: one call
of the packetizer, and the eager variant returns too. -/
theorem computeOnce_witness :
    ∃ w' ext, broadcastRTMP2RTMP demoEnv (demoHeader 9) 10 [0x17, 1, 5]
        (demoWorld demoKeys2 false false) = some w' ∧
      w'.trace = (demoWorld demoKeys2 false false).trace ++ ext ∧
      (packetizerCalls ext).length ≤ 1 ∧
      ∃ we, broadcastEager demoEnv (demoHeader 9) 10 [0x17, 1, 5]
          (demoWorld demoKeys2 false false) = some we ∧ we.group = w'.group :=
  let ⟨w', h⟩ :=
    (computeOnce demoEnv (demoHeader 9) 10 [0x17, 1, 5] (demoWorld demoKeys2 false false)
      rfl).2.2 (by decide)
  let ⟨ext, ht, _, hle, _, _, _, _, we, _, he, hg, _⟩ :=
    (computeOnce demoEnv (demoHeader 9) 10 [0x17, 1, 5] (demoWorld demoKeys2 false false)
      rfl).1 w' h
  ⟨w', ext, h, ht, hle, we, he, hg⟩

end Rtmp
